import Mathlib

/-!
# Shooting Gallery: game-state orchestration

A shallow embedding of `src/ShootingGallery.cpp` (the `ShootingGallery` demo built on the
Cyclone physics library) together with theorems about its projectile pool, scoring,
ammunition counter, aiming and reset logic.

Conventions of the embedding

* `cyclone::real` values are rationals.  Every constant the program compares against or
  steps by in the aiming and layout code (`0.5`, `70`, `90`, `10`, `15`, `9.5`, `19.5`,
  `-40`) is a dyadic rational that binary floating point represents exactly.  The other
  constants (`0.1`, `2.9`, `1.2`, `0.33`, ...) stand at their decimal value; no theorem
  depends on them.  The `int` members are integers; `unsigned` timestamps are naturals
  with the wrap-around of `startTime + 5000` written out.
* The fixed-size arrays `ammo[ammoRounds]`, `revolver[guns]` and `bullseyeData[bullseyes]`
  are lists; a pointer loop `for (p = a; p < a + n; p++)` is structural recursion over the
  list.  `State.WF` records the array lengths.
* Members that are initialised once and never assigned afterwards (`ammoRounds`,
  `bullseyes`, `currentShotType`, the `*OffsetLocal` vectors, `velocityVecLocal`) are
  constants.
* Code that is not part of `ShootingGallery.cpp` is a parameter: `Externals` bundles
  `computeRotatedVector` (from `utility.h`) and the rigid-body operations of the physics
  library whose effect is not a plain field write; `ContactOracle` supplies the outcome of
  every collision test and contact-budget check made by one call of `generateContacts`;
  the frame clock `TimingData::get().lastFrameTimestamp` is the argument `now`.
* Of a rigid body the model keeps the fields the program writes through setters.  Derived
  data (inertia tensors, transform matrices, `calculateDerivedData`, `calculateInternals`)
  and all rendering code are outside the model.
-/

namespace ShootingGallery

/-! ## Data model -/

/-- The `ShotType` enumeration. -/
inductive ShotType where
  | UNUSED
  | PISTOL
  deriving DecidableEq

/-- A `cyclone::Vector3`. -/
structure Vector3 where
  x : ℚ
  y : ℚ
  z : ℚ
  deriving DecidableEq

/-- Componentwise difference, `Vector3::operator-`. -/
def Vector3.sub (a b : Vector3) : Vector3 :=
  ⟨a.x - b.x, a.y - b.y, a.z - b.z⟩

instance : Sub Vector3 := ⟨Vector3.sub⟩

/-- A `cyclone::Quaternion` given by its four components `r i j k`. -/
structure Quaternion where
  r : ℚ
  i : ℚ
  j : ℚ
  k : ℚ
  deriving DecidableEq

/-- The part of a `cyclone::RigidBody` that the program writes through setters. -/
structure RigidBody where
  mass : ℚ
  position : Vector3
  orientation : Quaternion
  velocity : Vector3
  rotation : Vector3
  acceleration : Vector3
  linearDamping : ℚ
  angularDamping : ℚ
  forceAccum : Vector3
  torqueAccum : Vector3
  canSleep : Bool
  isAwake : Bool
  deriving DecidableEq

/-- Modelled from the spec: `RigidBody::setAwake(false)` belongs to the physics library and
is not under `src/`; section 4.3 says the struck target is "put to rest": the body is marked
asleep and its linear and angular velocity are cleared. -/
def RigidBody.setAwakeFalse (b : RigidBody) : RigidBody :=
  { b with isAwake := false, velocity := ⟨0, 0, 0⟩, rotation := ⟨0, 0, 0⟩ }

/-- Operations used by the program whose code lives outside `ShootingGallery.cpp`. -/
structure Externals where
  /-- The function `computeRotatedVector(local, eulerAngles)` of `utility.h`. -/
  computeRotatedVector : Vector3 → Vector3 → Vector3
  /-- The method `RigidBody::integrate(duration)`. -/
  integrate : RigidBody → ℚ → RigidBody
  /-- The method `RigidBody::addForceAtBodyPoint(force, point)`. -/
  addForceAtBodyPoint : RigidBody → Vector3 → Vector3 → RigidBody

/-- One slot of the projectile pool (`class AmmoRound`, a collision sphere). -/
structure AmmoRound where
  type : ShotType
  startTime : Nat
  velocityVecWorld : Vector3
  radius : ℚ
  body : RigidBody
  deriving DecidableEq

/-- One target (`class Bullseye`, a collision box). -/
structure Bullseye where
  hit : Bool
  halfSize : Vector3
  body : RigidBody
  deriving DecidableEq

/-- The weapon model (`class Gun`, a collision box). -/
structure Gun where
  halfSize : Vector3
  body : RigidBody
  deriving DecidableEq

/-- The mutable members of `class ShootingGallery`. -/
structure State where
  ammoCount : Int
  ammo : List AmmoRound
  revolver : List Gun
  bullseyeData : List Bullseye
  score : Int
  targetsRemaining : Int
  cameraOffsetWorld : Vector3
  aimOffsetWorld : Vector3
  gunOffsetWorld : Vector3
  ammoOffsetWorld : Vector3
  gunEuler : Vector3

/-! ## Constants -/

/-- The pool capacity `ammoRounds`. -/
def ammoRounds : Nat := 6

/-- The number of guns, `guns`. -/
def guns : Nat := 1

/-- The number of targets, `bullseyes`. -/
def bullseyes : Nat := 10

/-- The member `currentShotType`, set to `PISTOL` by the constructor and never assigned. -/
def currentShotType : ShotType := ShotType.PISTOL

/-- The member `AmmoRound::velocityVecLocal`. -/
def velocityVecLocal : Vector3 := ⟨0, 0, 20⟩

/-- The member `cameraOffsetLocal`. -/
def cameraOffsetLocal : Vector3 := ⟨0, 9 / 2, -3⟩

/-- The member `aimOffsetLocal`. -/
def aimOffsetLocal : Vector3 := ⟨0, 9 / 2, 50⟩

/-- The member `gunOffsetLocal`. -/
def gunOffsetLocal : Vector3 := ⟨-33 / 100, 17 / 4, -3 / 2⟩

/-- The member `ammoOffsetLocal`. -/
def ammoOffsetLocal : Vector3 := ⟨33 / 100, 1 / 4, -2⟩

/-- The GLUT key code `GLUT_KEY_UP`. -/
def GLUT_KEY_UP : Int := 101

/-- The GLUT key code `GLUT_KEY_DOWN`. -/
def GLUT_KEY_DOWN : Int := 103

/-- Array lengths of a `ShootingGallery` object. -/
def State.WF (s : State) : Prop :=
  s.ammo.length = ammoRounds ∧ s.revolver.length = guns ∧ s.bullseyeData.length = bullseyes

/-! ## Object set-up -/

/-- The method `AmmoRound::setState(shotType, position, angle)`; `now` is
`TimingData::get().lastFrameTimestamp`. -/
def AmmoRound.setState (ext : Externals) (now : Nat) (shot : AmmoRound)
    (shotType : ShotType) (position angle : Vector3) : AmmoRound :=
  let shot := { shot with type := shotType }
  let shot :=
    match shot.type with
    | ShotType.PISTOL =>
      let velocityVecWorld := ext.computeRotatedVector velocityVecLocal angle
      { shot with
        velocityVecWorld := velocityVecWorld
        radius := 3 / 100
        body :=
          { shot.body with
            mass := 3 / 2
            position := ⟨position.x, position.y, position.z⟩
            orientation := ⟨1, 0, 0, 0⟩
            velocity := ⟨velocityVecWorld.x, velocityVecWorld.y, velocityVecWorld.z⟩
            acceleration := ⟨0, -1 / 2, 0⟩
            linearDamping := 99 / 100
            angularDamping := 8 / 10 } }
    | ShotType.UNUSED => shot
  let shot := { shot with body := { shot.body with canSleep := false, isAwake := true } }
  { shot with startTime := now }

/-- The method `Bullseye::setState(x, z)`. -/
def Bullseye.setState (b : Bullseye) (x z : ℚ) : Bullseye :=
  let halfSize : Vector3 := ⟨12 / 10, 3, 1⟩
  let mass : ℚ := halfSize.x * halfSize.y * halfSize.z * (1 / 10)
  { b with
    halfSize := halfSize
    body :=
      { b.body with
        position := ⟨x, 29 / 10, z⟩
        orientation := ⟨0, 0, 1, 0⟩
        velocity := ⟨5, 0, 0⟩
        rotation := ⟨0, 0, 0⟩
        mass := mass
        linearDamping := 95 / 100
        angularDamping := 8 / 10
        forceAccum := ⟨0, 0, 0⟩
        torqueAccum := ⟨0, 0, 0⟩
        acceleration := ⟨0, 0, 0⟩
        canSleep := false
        isAwake := true } }

/-- The method `Gun::setState(position)`. -/
def Gun.setState (g : Gun) (position : Vector3) : Gun :=
  let halfSize : Vector3 := ⟨1, 1, 1⟩
  let mass : ℚ := halfSize.x * halfSize.y * halfSize.z * 10
  { g with
    halfSize := halfSize
    body :=
      { g.body with
        position := ⟨position.x, position.y, position.z⟩
        orientation := ⟨1, 0, 0, 0⟩
        velocity := ⟨0, 0, 0⟩
        rotation := ⟨0, 0, 0⟩
        mass := mass
        linearDamping := 95 / 100
        angularDamping := 8 / 10
        forceAccum := ⟨0, 0, 0⟩
        torqueAccum := ⟨0, 0, 0⟩
        acceleration := ⟨0, 0, 0⟩
        canSleep := false
        isAwake := true } }

/-! ## `reset` -/

/-- The target loop of `reset`: `x`, `z` and `perRow` are the loop's local variables. -/
def resetBullseyes : List Bullseye → ℚ → ℚ → Int → List Bullseye
  | [], _, _, _ => []
  | bullseye :: rest, x, z, perRow =>
    if perRow < 5 then
      { bullseye.setState x z with hit := false } :: resetBullseyes rest (x + 10) z (perRow + 1)
    else
      { bullseye.setState x (39 / 2) with hit := false } ::
        resetBullseyes rest (x + 15) (39 / 2) perRow

/-- The method `ShootingGallery::reset`. -/
def reset (s : State) : State :=
  let cameraOffsetWorld : Vector3 := ⟨cameraOffsetLocal.x, cameraOffsetLocal.y, cameraOffsetLocal.z⟩
  { s with
    cameraOffsetWorld := cameraOffsetWorld
    aimOffsetWorld := ⟨aimOffsetLocal.x, aimOffsetLocal.y, aimOffsetLocal.z⟩
    gunOffsetWorld := ⟨gunOffsetLocal.x, gunOffsetLocal.y, gunOffsetLocal.z⟩
    ammoOffsetWorld := ⟨ammoOffsetLocal.x, ammoOffsetLocal.y, ammoOffsetLocal.z⟩
    gunEuler := ⟨0, 0, 0⟩
    score := 0
    targetsRemaining := bullseyes
    ammo := s.ammo.map fun shot => { shot with type := ShotType.UNUSED }
    bullseyeData := resetBullseyes s.bullseyeData (-40) (19 / 2) 0
    revolver := s.revolver.map fun gun => gun.setState cameraOffsetWorld }

/-! ## `fire` -/

/-- The search loop of `fire`: the offset at which `shot` stops, the index of the first
`UNUSED` slot, or the array length when there is none. -/
def firstUnused : List AmmoRound → Nat
  | [] => 0
  | shot :: rest => if shot.type = ShotType.UNUSED then 0 else firstUnused rest + 1

/-- The method `ShootingGallery::fire`; `now` is the frame timestamp read by `setState`. -/
def fire (ext : Externals) (now : Nat) (s : State) : State :=
  let shot := firstUnused s.ammo
  if shot ≥ s.ammo.length then s
  else
    { s with
      ammo := s.ammo.modify
        (fun a => a.setState ext now currentShotType (s.cameraOffsetWorld - s.ammoOffsetWorld)
          s.gunEuler) shot
      ammoCount := if s.ammoCount > 0 then s.ammoCount - 1 else s.ammoCount }

/-! ## `updateObjects` -/

/-- The projectile loop of `updateObjects`, threading `ammoCount`.  The addition
`startTime + 5000` is `unsigned` arithmetic. -/
def updateShots (ext : Externals) (duration : ℚ) (now : Nat) :
    List AmmoRound → Int → List AmmoRound × Int
  | [], ammoCount => ([], ammoCount)
  | shot :: rest, ammoCount =>
    if shot.type ≠ ShotType.UNUSED then
      let shot := { shot with body := ext.integrate shot.body duration }
      if shot.body.position.y < 0 ∨ (shot.startTime + 5000) % 2 ^ 32 < now ∨
          shot.body.position.z > 200 then
        let r := updateShots ext duration now rest (if ammoCount ≤ 0 then 6 else ammoCount)
        ({ shot with type := ShotType.UNUSED } :: r.1, r.2)
      else
        let r := updateShots ext duration now rest ammoCount
        (shot :: r.1, r.2)
    else
      let r := updateShots ext duration now rest ammoCount
      (shot :: r.1, r.2)

/-- The body of the target loop of `updateObjects`: integrate, then reverse the lateral
velocity at the bounds. -/
def updateBullseye (ext : Externals) (duration : ℚ) (bullseye : Bullseye) : Bullseye :=
  let bullseye := { bullseye with body := ext.integrate bullseye.body duration }
  if bullseye.body.position.x ≤ -15 then
    { bullseye with body := { bullseye.body with velocity := ⟨5, 0, 0⟩ } }
  else if bullseye.body.position.x ≥ 15 then
    { bullseye with body := { bullseye.body with velocity := ⟨-5, 0, 0⟩ } }
  else bullseye

/-- The method `ShootingGallery::updateObjects(duration)`. -/
def updateObjects (ext : Externals) (duration : ℚ) (now : Nat) (s : State) : State :=
  let r := updateShots ext duration now s.ammo s.ammoCount
  { s with
    ammo := r.1
    ammoCount := r.2
    bullseyeData := s.bullseyeData.map (updateBullseye ext duration) }

/-! ## `generateContacts` -/

/-- Outcomes of the collision-library calls made by one run of `generateContacts`.  Each
call site is reached at most once per target index `i`, or per pair of target index `i` and
projectile index `j`, so indexing by position covers every possible run. -/
structure ContactOracle where
  /-- The check `cData.hasMoreContacts()` at the head of the iteration for target `i`. -/
  hasMoreContacts : Nat → Bool
  /-- The test `boxAndHalfSpace(*bullseye, plane, &cData)` for target `i`. -/
  boxAndHalfSpace : Nat → Bool
  /-- The check `cData.hasMoreContacts()` made for target `i` before testing shot `j`. -/
  hasMoreContactsShot : Nat → Nat → Bool
  /-- The test `boxAndSphere(*bullseye, *shot, &cData)` for target `i` and shot `j`. -/
  boxAndSphere : Nat → Nat → Bool

/-- The ground-plane branch for one target: collapse the footprint, put the body to rest and
score once. -/
def planeContact (bullseye : Bullseye) (score targetsRemaining : Int) :
    Bullseye × Int × Int :=
  let bullseye :=
    { bullseye with halfSize := ⟨0, 0, 0⟩, body := bullseye.body.setAwakeFalse }
  if bullseye.hit = false then
    ({ bullseye with hit := true }, score + 1, targetsRemaining - 1)
  else (bullseye, score, targetsRemaining)

/-- The ground-plane test of the iteration for target `i`. -/
def planeStep (o : ContactOracle) (i : Nat) (bullseye : Bullseye)
    (score targetsRemaining : Int) : Bullseye × Int × Int :=
  if o.boxAndHalfSpace i then planeContact bullseye score targetsRemaining
  else (bullseye, score, targetsRemaining)

/-- What the projectile loop of `generateContacts` hands back for one target; `returned`
records that the function executed `return`. -/
structure ShotLoopResult where
  ammo : List AmmoRound
  bullseye : Bullseye
  ammoCount : Int
  returned : Bool

/-- What a box-sphere contact does to the target: stop it in its track, let gravity act on
it, and add the force of the impact where it is hit. -/
def strikeBullseye (ext : Externals) (bullseye : Bullseye) (shot : AmmoRound) : Bullseye :=
  let body := { bullseye.body with velocity := ⟨0, 0, 0⟩ }
  let body := { body with acceleration := ⟨0, -10, 0⟩ }
  { bullseye with
    body := ext.addForceAtBodyPoint body shot.body.velocity shot.body.position }

/-- The projectile loop of `generateContacts` for target `i`, from shot index `j` on. -/
def contactShots (ext : Externals) (o : ContactOracle) (i : Nat) :
    Nat → List AmmoRound → Bullseye → Int → ShotLoopResult
  | _, [], bullseye, ammoCount => ⟨[], bullseye, ammoCount, false⟩
  | j, shot :: rest, bullseye, ammoCount =>
    if shot.type ≠ ShotType.UNUSED then
      if o.hasMoreContactsShot i j = false then ⟨shot :: rest, bullseye, ammoCount, true⟩
      else if o.boxAndSphere i j then
        let r := contactShots ext o i (j + 1) rest (strikeBullseye ext bullseye shot)
          (if ammoCount ≤ 0 then 6 else ammoCount)
        ⟨{ shot with type := ShotType.UNUSED } :: r.ammo, r.bullseye, r.ammoCount, r.returned⟩
      else
        let r := contactShots ext o i (j + 1) rest bullseye ammoCount
        ⟨shot :: r.ammo, r.bullseye, r.ammoCount, r.returned⟩
    else
      let r := contactShots ext o i (j + 1) rest bullseye ammoCount
      ⟨shot :: r.ammo, r.bullseye, r.ammoCount, r.returned⟩

/-- The members written by `generateContacts`. -/
structure ContactResult where
  bullseyeData : List Bullseye
  ammo : List AmmoRound
  ammoCount : Int
  score : Int
  targetsRemaining : Int

/-- The target loop of `generateContacts`, from target index `i` on. -/
def contactBullseyes (ext : Externals) (o : ContactOracle) :
    Nat → List Bullseye → List AmmoRound → Int → Int → Int → ContactResult
  | _, [], ammo, ammoCount, score, targetsRemaining =>
    ⟨[], ammo, ammoCount, score, targetsRemaining⟩
  | i, bullseye :: rest, ammo, ammoCount, score, targetsRemaining =>
    if o.hasMoreContacts i = false then
      ⟨bullseye :: rest, ammo, ammoCount, score, targetsRemaining⟩
    else
      let p := planeStep o i bullseye score targetsRemaining
      let r := contactShots ext o i 0 ammo p.1 ammoCount
      if r.returned then ⟨r.bullseye :: rest, r.ammo, r.ammoCount, p.2.1, p.2.2⟩
      else
        let t := contactBullseyes ext o (i + 1) rest r.ammo r.ammoCount p.2.1 p.2.2
        ⟨r.bullseye :: t.bullseyeData, t.ammo, t.ammoCount, t.score, t.targetsRemaining⟩

/-- The method `ShootingGallery::generateContacts`. -/
def generateContacts (ext : Externals) (o : ContactOracle) (s : State) : State :=
  let r := contactBullseyes ext o 0 s.bullseyeData s.ammo s.ammoCount s.score
    s.targetsRemaining
  { s with
    bullseyeData := r.bullseyeData
    ammo := r.ammo
    ammoCount := r.ammoCount
    score := r.score
    targetsRemaining := r.targetsRemaining }

/-! ## Keyboard input -/

/-- The world offsets recomputed from the current `gunEuler`. -/
def recomputeOffsets (ext : Externals) (s : State) : State :=
  { s with
    aimOffsetWorld := ext.computeRotatedVector aimOffsetLocal s.gunEuler
    ammoOffsetWorld := ext.computeRotatedVector ammoOffsetLocal s.gunEuler }

/-- The `case 'w': case 'W':` branch of `key` (pitch up). -/
def keyW (ext : Externals) (s : State) : State :=
  let s := { s with gunEuler := { s.gunEuler with x := s.gunEuler.x - 1 / 2 } }
  if s.gunEuler.x > -70 then recomputeOffsets ext s
  else if s.gunEuler.x < -70 then { s with gunEuler := { s.gunEuler with x := -70 } }
  else s

/-- The `case 's': case 'S':` branch of `key` (pitch down). -/
def keyS (ext : Externals) (s : State) : State :=
  let s := { s with gunEuler := { s.gunEuler with x := s.gunEuler.x + 1 / 2 } }
  if s.gunEuler.x < 70 then recomputeOffsets ext s
  else if s.gunEuler.x > 70 then { s with gunEuler := { s.gunEuler with x := 70 } }
  else s

/-- The `case 'a': case 'A':` branch of `key` (yaw left). -/
def keyA (ext : Externals) (s : State) : State :=
  let s := { s with gunEuler := { s.gunEuler with y := s.gunEuler.y + 1 / 2 } }
  if s.gunEuler.y < 90 then recomputeOffsets ext s
  else if s.gunEuler.y > 90 then { s with gunEuler := { s.gunEuler with y := 90 } }
  else s

/-- The `case 'd': case 'D':` branch of `key` (yaw right). -/
def keyD (ext : Externals) (s : State) : State :=
  let s := { s with gunEuler := { s.gunEuler with y := s.gunEuler.y - 1 / 2 } }
  if s.gunEuler.y > -90 then recomputeOffsets ext s
  else if s.gunEuler.y < -90 then { s with gunEuler := { s.gunEuler with y := -90 } }
  else s

/-- The method `ShootingGallery::key(key)`.  The result is `none` when the process ends
(`case 27: exit(0)`); a key without a case leaves the state as it is. -/
def key (ext : Externals) (now : Nat) (c : Char) (s : State) : Option State :=
  if c = 'w' ∨ c = 'W' then some (keyW ext s)
  else if c = 's' ∨ c = 'S' then some (keyS ext s)
  else if c = 'a' ∨ c = 'A' then some (keyA ext s)
  else if c = 'd' ∨ c = 'D' then some (keyD ext s)
  else if c = ' ' then some (fire ext now s)
  else if c = 'r' ∨ c = 'R' then some (reset s)
  else if c = Char.ofNat 27 then none
  else some s

/-- The loop body of the `GLUT_KEY_UP` branch of `specialKey`. -/
def raiseGun (s : State) : State :=
  { s with
    cameraOffsetWorld := { s.cameraOffsetWorld with y := s.cameraOffsetWorld.y + 1 / 10 }
    aimOffsetWorld := { s.aimOffsetWorld with y := s.aimOffsetWorld.y + 1 / 10 }
    gunOffsetWorld := { s.gunOffsetWorld with y := s.gunOffsetWorld.y + 1 / 10 } }

/-- The loop body of the `GLUT_KEY_DOWN` branch of `specialKey`. -/
def lowerGun (s : State) : State :=
  { s with
    cameraOffsetWorld := { s.cameraOffsetWorld with y := s.cameraOffsetWorld.y - 1 / 10 }
    aimOffsetWorld := { s.aimOffsetWorld with y := s.aimOffsetWorld.y - 1 / 10 }
    gunOffsetWorld := { s.gunOffsetWorld with y := s.gunOffsetWorld.y - 1 / 10 } }

/-- The method `ShootingGallery::specialKey(specialKey)`; each loop runs its body once per
gun. -/
def specialKey (k : Int) (s : State) : State :=
  let s := if k = GLUT_KEY_UP then s.revolver.foldl (fun s _ => raiseGun s) s else s
  if k = GLUT_KEY_DOWN then s.revolver.foldl (fun s _ => lowerGun s) s else s

/-! ## Runs of the program -/

/-- One call into the object from the application framework. -/
inductive Command where
  | fire (now : Nat)
  | reset
  | updateObjects (duration : ℚ) (now : Nat)
  | generateContacts (o : ContactOracle)
  | key (c : Char) (now : Nat)
  | specialKey (k : Int)

/-- The effect of one command; `none` when the process has exited. -/
def exec (ext : Externals) : Command → State → Option State
  | Command.fire now, s => some (fire ext now s)
  | Command.reset, s => some (reset s)
  | Command.updateObjects duration now, s => some (updateObjects ext duration now s)
  | Command.generateContacts o, s => some (generateContacts ext o s)
  | Command.key c now, s => key ext now c s
  | Command.specialKey k, s => some (specialKey k s)

/-- Whether a command runs `reset`. -/
def Command.isReset : Command → Bool
  | Command.reset => true
  | Command.key c _ => c = 'r' || c = 'R'
  | _ => false

/-- The effect of a sequence of commands, in order. -/
def run (ext : Externals) : List Command → State → Option State
  | [], s => some s
  | c :: cs, s => (exec ext c s).bind (run ext cs)

/-- The member values at the start of the constructor body: the default member
initialisers hold, the array lengths are fixed, and the contents of the pooled bodies are
whatever their default constructors left. -/
def Constructed (s : State) : Prop :=
  s.WF ∧ s.ammoCount = 6 ∧ s.score = 0 ∧ s.targetsRemaining = 10 ∧
    s.gunEuler = ⟨0, 0, 0⟩ ∧ s.cameraOffsetWorld = cameraOffsetLocal ∧
    s.aimOffsetWorld = aimOffsetLocal ∧ s.gunOffsetWorld = gunOffsetLocal ∧
    s.ammoOffsetWorld = ammoOffsetLocal ∧ ∀ b ∈ s.bullseyeData, b.hit = false

/-- States of a running program: the constructor calls `reset()`, after which the
framework issues commands. -/
inductive Reachable (ext : Externals) : State → Prop where
  | init (s : State) : Constructed s → Reachable ext (reset s)
  | step (c : Command) (s t : State) : Reachable ext s → exec ext c s = some t → Reachable ext t

/-- Number of projectile slots in flight (type other than `UNUSED`). -/
def inFlight (ammo : List AmmoRound) : Nat :=
  ammo.countP fun shot => shot.type ≠ ShotType.UNUSED

/-- Number of targets whose `hit` flag is set. -/
def hitCount (bs : List Bullseye) : Nat :=
  bs.countP fun b => b.hit

/-- The `hit` flag of target `i` (`false` outside the array). -/
def State.hitFlag (s : State) (i : Nat) : Bool :=
  match s.bullseyeData[i]? with
  | some b => b.hit
  | none => false

/-- The type of projectile slot `j` (`UNUSED` outside the array). -/
def State.shotType (s : State) (j : Nat) : ShotType :=
  match s.ammo[j]? with
  | some shot => shot.type
  | none => ShotType.UNUSED

/-- The members `specialKey` leaves alone. -/
def SameCore (s t : State) : Prop :=
  t.ammoCount = s.ammoCount ∧ t.ammo = s.ammo ∧ t.revolver = s.revolver ∧
    t.bullseyeData = s.bullseyeData ∧ t.score = s.score ∧
    t.targetsRemaining = s.targetsRemaining ∧ t.ammoOffsetWorld = s.ammoOffsetWorld ∧
    t.gunEuler = s.gunEuler

/-- The members the aim keys leave alone. -/
def SameGame (s t : State) : Prop :=
  t.ammoCount = s.ammoCount ∧ t.ammo = s.ammo ∧ t.revolver = s.revolver ∧
    t.bullseyeData = s.bullseyeData ∧ t.score = s.score ∧
    t.targetsRemaining = s.targetsRemaining

/-- The aim invariant: pitch within `[-70, 70]` and yaw within `[-90, 90]`. -/
def AimInRange (s : State) : Prop :=
  -70 ≤ s.gunEuler.x ∧ s.gunEuler.x ≤ 70 ∧ -90 ≤ s.gunEuler.y ∧ s.gunEuler.y ≤ 90

/-- Whether a command ends the process (the escape key). -/
def Command.exits : Command → Bool
  | Command.key c _ => c = Char.ofNat 27
  | _ => false

/-- The pool and counter invariant of a running program. -/
def Inv (s : State) : Prop :=
  s.WF ∧ 0 ≤ s.ammoCount ∧ s.ammoCount ≤ 6 ∧ AimInRange s

/-! ## Sample data for concrete evaluations -/

/-- A stand-in for the external operations: the rotation ignores the angles, integration
advances the position by `velocity * duration`, and forces are ignored. -/
def sampleExt : Externals where
  computeRotatedVector := fun v _ => v
  integrate := fun b dt =>
    { b with
      position :=
        ⟨b.position.x + b.velocity.x * dt, b.position.y + b.velocity.y * dt,
          b.position.z + b.velocity.z * dt⟩ }
  addForceAtBodyPoint := fun b _ _ => b

/-- A rigid body with every field zero. -/
def blankBody : RigidBody :=
  ⟨0, ⟨0, 0, 0⟩, ⟨0, 0, 0, 0⟩, ⟨0, 0, 0⟩, ⟨0, 0, 0⟩, ⟨0, 0, 0⟩, 0, 0, ⟨0, 0, 0⟩, ⟨0, 0, 0⟩,
    false, false⟩

/-- A projectile slot of the given type over a blank body. -/
def blankShot (t : ShotType) : AmmoRound := ⟨t, 0, ⟨0, 0, 0⟩, 0, blankBody⟩

/-- A target over a blank body. -/
def blankBullseye : Bullseye := ⟨false, ⟨0, 0, 0⟩, blankBody⟩

/-- The object as the member initialisers leave it, over blank pooled bodies. -/
def blankState : State where
  ammoCount := 6
  ammo := List.replicate 6 (blankShot ShotType.UNUSED)
  revolver := [⟨⟨0, 0, 0⟩, blankBody⟩]
  bullseyeData := List.replicate 10 blankBullseye
  score := 0
  targetsRemaining := 10
  cameraOffsetWorld := cameraOffsetLocal
  aimOffsetWorld := aimOffsetLocal
  gunOffsetWorld := gunOffsetLocal
  ammoOffsetWorld := ammoOffsetLocal
  gunEuler := ⟨0, 0, 0⟩

/-- The state right after construction from `blankState`. -/
def startState : State := reset blankState

/-- Number of targets whose `hit` flag is clear in `before` and set in `after`, position
by position: the targets struck between the two snapshots. -/
def newlyHit (before after : List Bullseye) : Nat :=
  (List.zip before after).countP fun p => !p.1.hit && p.2.hit

/-- Position by position, a set `hit` flag stays set. -/
def HitsKept (before after : List Bullseye) : Prop :=
  List.Forall₂ (fun b c : Bullseye => b.hit = true → c.hit = true) before after

/-- An oracle that reports budget left and a contact at every test. -/
def loudOracle : ContactOracle := ⟨fun _ => true, fun _ => true, fun _ _ => true, fun _ _ => true⟩

/-- A shot followed by two frames in which every collision test is positive. -/
def loudRun : List Command :=
  [Command.fire 0, Command.generateContacts loudOracle, Command.fire 1,
    Command.generateContacts loudOracle]

/-- The state after `loudRun`. -/
def loudState : State := (run sampleExt loudRun startState).getD startState

/-- Three shots and a frame in which all three expire: every slot is free again and the
counter stands at 3. -/
def spentRun : List Command :=
  [Command.fire 0, Command.fire 0, Command.fire 0, Command.updateObjects (1 / 20) 6000]

/-- The state after `spentRun`. -/
def spentState : State := (run sampleExt spentRun startState).getD startState

/-- A mixed sequence of aim keys, a shot, an arrow key and a reset. -/
def aimRun : List Command :=
  [Command.key 'w' 0, Command.key 'A' 0, Command.key ' ' 0, Command.specialKey GLUT_KEY_UP,
    Command.key 's' 0, Command.key 'd' 0, Command.key 'r' 0, Command.key 'W' 0]

/-- A state aimed at the upper pitch limit, `gunEuler.x = -70`. -/
def pitchLimitState : State := { startState with gunEuler := ⟨-70, 0, 0⟩ }

/-- Lateral position and depth of every target, in array order. -/
def targetLayout (s : State) : List (ℚ × ℚ) :=
  s.bullseyeData.map fun b => (b.body.position.x, b.body.position.z)

/-- The two-row grid: five targets at depth 9.5 from `x = -40` in steps of 10, then five at
depth 19.5 in steps of 15. -/
def gridLayout : List (ℚ × ℚ) :=
  [(-40, 19 / 2), (-30, 19 / 2), (-20, 19 / 2), (-10, 19 / 2), (0, 19 / 2),
    (10, 39 / 2), (25, 39 / 2), (40, 39 / 2), (55, 39 / 2), (70, 39 / 2)]

/-- Lateral position of target `i` (0 outside the array). -/
def State.targetX (s : State) (i : Nat) : ℚ :=
  match s.bullseyeData[i]? with
  | some b => b.body.position.x
  | none => 0

/-- Frames without any contact: one `updateObjects(duration)` per entry, each entry giving
the duration and the frame timestamp. -/
def advance (ext : Externals) : List (ℚ × Nat) → State → State
  | [], s => s
  | f :: fs, s => advance ext fs (updateObjects ext f.1 f.2 s)

/-- Modelled from the spec: `RigidBody::integrate` belongs to the physics library and is
not under `src/`; the oscillation property of section 8 takes the lateral position to be
integrated as `x += v * dt` with no external impulse, the velocity being changed by the
reversal rule only. -/
def EulerLateral (ext : Externals) : Prop :=
  ∀ (b : RigidBody) (dt : ℚ),
    (ext.integrate b dt).position.x = b.position.x + b.velocity.x * dt ∧
      (ext.integrate b dt).velocity = b.velocity

/-- The envelope of the bang-bang oscillator for steps of at most `D`: moving right the
target is at most at `M`, moving left at least at `m`, and it overshoots either bound by
at most `5 * D`. -/
def InBand (m M D : ℚ) (b : Bullseye) : Prop :=
  (b.body.velocity = ⟨5, 0, 0⟩ ∧ m - 5 * D ≤ b.body.position.x ∧ b.body.position.x ≤ M) ∨
    (b.body.velocity = ⟨-5, 0, 0⟩ ∧ m ≤ b.body.position.x ∧ b.body.position.x ≤ M + 5 * D)

/-- What a command other than reset does to the flags and the counters. -/
def Scored (s t : State) : Prop :=
  HitsKept s.bullseyeData t.bullseyeData ∧
    t.score = s.score + newlyHit s.bullseyeData t.bullseyeData ∧
    t.targetsRemaining = s.targetsRemaining - newlyHit s.bullseyeData t.bullseyeData

/-- Three seconds of play at 35 ms per frame. -/
def steadyFrames : List (ℚ × Nat) := List.replicate 86 (7 / 200, 0)

/-- Six shots fired in the same frame. -/
def sixFires : List Command := List.replicate 6 (Command.fire 0)

/-- The state after `sixFires`: every slot in flight, counter at 0. -/
def fullState : State := (run sampleExt sixFires startState).getD startState

/-- Three shots, a frame in which all three expire, then three more shots. -/
def dryRun : List Command :=
  [Command.fire 0, Command.fire 0, Command.fire 0, Command.updateObjects (1 / 20) 6000,
    Command.fire 6000, Command.fire 6000, Command.fire 6000]

/-- The state after `dryRun`: counter at 0 with slots 3, 4 and 5 still `UNUSED`. -/
def dryState : State := (run sampleExt dryRun startState).getD startState

/-- Number of targets whose `hit` flag is clear. -/
def missCount (bs : List Bullseye) : Nat :=
  bs.countP fun b => !b.hit

/-- The counters agree with the flags: `score` counts the targets hit and
`targetsRemaining` the targets not hit. -/
def Tally (s : State) : Prop :=
  s.score = hitCount s.bullseyeData ∧ s.targetsRemaining = missCount s.bullseyeData

/-- Modelled from the spec: `RigidBody::addForceAtBodyPoint` belongs to the physics library
and is not under `src/`; section 4.2 has the struck body "halted and switched to free-fall
acceleration" with the impact applied on top: the force is accumulated for the next
integration and leaves the velocity and the acceleration of the body as they are. -/
def ForceKeepsMotion (ext : Externals) : Prop :=
  ∀ (b : RigidBody) (force point : Vector3),
    (ext.addForceAtBodyPoint b force point).velocity = b.velocity ∧
      (ext.addForceAtBodyPoint b force point).acceleration = b.acceleration

/-- A target stopped in its track and left to gravity. -/
def Halted (b : Bullseye) : Prop :=
  b.body.velocity = ⟨0, 0, 0⟩ ∧ b.body.acceleration = ⟨0, -10, 0⟩

/-- Whether the projectile loop of `generateContacts` for target `i`, run from shot index
`j` over the given slots, reaches a positive `boxAndSphere` test: it follows the control
flow of `contactShots` and records the contact instead of applying it. -/
def shotsStrike (o : ContactOracle) (i : Nat) : Nat → List AmmoRound → Bool
  | _, [] => false
  | j, shot :: rest =>
    if shot.type ≠ ShotType.UNUSED then
      if o.hasMoreContactsShot i j = false then false
      else if o.boxAndSphere i j then true
      else shotsStrike o i (j + 1) rest
    else shotsStrike o i (j + 1) rest

/-- For each target, whether the run of `generateContacts` registers a box-sphere contact
between that target and an in-flight projectile: it follows the control flow of
`contactBullseyes`, with `false` for the targets the run never reaches. -/
def sphereContacts (ext : Externals) (o : ContactOracle) :
    Nat → List Bullseye → List AmmoRound → Int → Int → Int → List Bool
  | _, [], _, _, _, _ => []
  | i, bullseye :: rest, ammo, ammoCount, score, targetsRemaining =>
    if o.hasMoreContacts i = false then List.replicate (rest.length + 1) false
    else
      let p := planeStep o i bullseye score targetsRemaining
      let r := contactShots ext o i 0 ammo p.1 ammoCount
      shotsStrike o i 0 ammo ::
        (if r.returned then List.replicate rest.length false
        else sphereContacts ext o (i + 1) rest r.ammo r.ammoCount p.2.1 p.2.2)

/-- Whether `generateContacts`, run from `s` under the oracle `o`, registers a box-sphere
contact for target `i`. -/
def State.sphereContact (s : State) (ext : Externals) (o : ContactOracle) (i : Nat) : Bool :=
  match (sphereContacts ext o 0 s.bullseyeData s.ammo s.ammoCount s.score
      s.targetsRemaining)[i]? with
  | some hit => hit
  | none => false

/-- An oracle with budget everywhere, no ground-plane contact, and a box-sphere contact
between target 0 and shot 0 only. -/
def strikeOracle : ContactOracle :=
  ⟨fun _ => true, fun _ => false, fun _ _ => true, fun i j => i = 0 && j = 0⟩

/-- A shot and one frame of flight. -/
def strikeRun : List Command := [Command.fire 0, Command.updateObjects (1 / 20) 50]

/-- The state after `strikeRun`: shot 0 in flight, no target hit. -/
def aimedState : State := (run sampleExt strikeRun startState).getD startState

/-! ## Array lengths -/

theorem resetBullseyes_length (l : List Bullseye) (x z : ℚ) (perRow : Int) :
    (resetBullseyes l x z perRow).length = l.length := by
  induction l generalizing x z perRow with
  | nil => rfl
  | cons b rest ih =>
    simp only [resetBullseyes]
    split <;> simp only [List.length_cons, ih]

theorem updateShots_length (ext : Externals) (d : ℚ) (now : Nat) (l : List AmmoRound)
    (ac : Int) : (updateShots ext d now l ac).1.length = l.length := by
  induction l generalizing ac with
  | nil => rfl
  | cons shot rest ih =>
    simp only [updateShots]
    split
    · split <;> simp only [List.length_cons, ih]
    · simp only [List.length_cons, ih]

theorem contactShots_length (ext : Externals) (o : ContactOracle) (i j : Nat)
    (l : List AmmoRound) (b : Bullseye) (ac : Int) :
    (contactShots ext o i j l b ac).ammo.length = l.length := by
  induction l generalizing j b ac with
  | nil => rfl
  | cons shot rest ih =>
    simp only [contactShots]
    split
    · split
      · rfl
      · split <;> simp only [List.length_cons, ih]
    · simp only [List.length_cons, ih]

theorem contactBullseyes_length (ext : Externals) (o : ContactOracle) (i : Nat)
    (bs : List Bullseye) (ammo : List AmmoRound) (ac sc tr : Int) :
    (contactBullseyes ext o i bs ammo ac sc tr).bullseyeData.length = bs.length ∧
      (contactBullseyes ext o i bs ammo ac sc tr).ammo.length = ammo.length := by
  induction bs generalizing i ammo ac sc tr with
  | nil => exact ⟨rfl, rfl⟩
  | cons b rest ih =>
    simp only [contactBullseyes]
    split
    · exact ⟨rfl, rfl⟩
    · split
      · simp only [List.length_cons, contactShots_length, and_self]
      · simp only [List.length_cons, (ih _ _ _ _ _).1, (ih _ _ _ _ _).2,
          contactShots_length, and_self]

/-- Folding a step that preserves `P` preserves `P`. -/
theorem foldl_preserves {α β : Type} (f : β → α → β) (P : β → Prop)
    (h : ∀ b a, P b → P (f b a)) (l : List α) (b : β) (hb : P b) : P (l.foldl f b) := by
  induction l generalizing b with
  | nil => simpa using hb
  | cons a rest ih => exact ih _ (h b a hb)

theorem specialKey_sameCore (k : Int) (s : State) : SameCore s (specialKey k s) := by
  have refl : ∀ u : State, SameCore u u := fun u => ⟨rfl, rfl, rfl, rfl, rfl, rfl, rfl, rfl⟩
  have up : ∀ (l : List Gun) (u : State), SameCore s u →
      SameCore s (l.foldl (fun s _ => raiseGun s) u) := fun l u hu =>
    foldl_preserves (fun s _ => raiseGun s) (SameCore s) (fun _ _ hb => hb) l u hu
  have down : ∀ (l : List Gun) (u : State), SameCore s u →
      SameCore s (l.foldl (fun s _ => lowerGun s) u) := fun l u hu =>
    foldl_preserves (fun s _ => lowerGun s) (SameCore s) (fun _ _ hb => hb) l u hu
  have h1 : SameCore s
      (if k = GLUT_KEY_UP then s.revolver.foldl (fun s _ => raiseGun s) s else s) := by
    split
    · exact up _ _ (refl s)
    · exact refl s
  unfold specialKey
  simp only
  split
  · exact down _ _ h1
  · exact h1

theorem reset_wf (s : State) (h : s.WF) : (reset s).WF := by
  obtain ⟨h1, h2, h3⟩ := h
  exact ⟨by simp [reset, h1], by simp [reset, h2], by simp [reset, resetBullseyes_length, h3]⟩

theorem fire_wf (ext : Externals) (now : Nat) (s : State) (h : s.WF) :
    (fire ext now s).WF := by
  obtain ⟨h1, h2, h3⟩ := h
  unfold fire
  simp only
  split
  · exact ⟨h1, h2, h3⟩
  · exact ⟨by simp [h1], h2, h3⟩

theorem updateObjects_wf (ext : Externals) (d : ℚ) (now : Nat) (s : State) (h : s.WF) :
    (updateObjects ext d now s).WF := by
  obtain ⟨h1, h2, h3⟩ := h
  exact ⟨by simp [updateObjects, updateShots_length, h1], h2, by simp [updateObjects, h3]⟩

theorem generateContacts_wf (ext : Externals) (o : ContactOracle) (s : State) (h : s.WF) :
    (generateContacts ext o s).WF := by
  obtain ⟨h1, h2, h3⟩ := h
  exact ⟨by simp [generateContacts, contactBullseyes_length, h1], h2,
    by simp [generateContacts, contactBullseyes_length, h3]⟩

/-! ## The in-flight count and the ammunition counter -/

theorem inFlight_cons (shot : AmmoRound) (l : List AmmoRound) :
    inFlight (shot :: l) = inFlight l + (if shot.type = ShotType.UNUSED then 0 else 1) := by
  by_cases h : shot.type = ShotType.UNUSED <;> simp [inFlight, List.countP_cons, h]

theorem inFlight_le_length (l : List AmmoRound) : inFlight l ≤ l.length :=
  List.countP_le_length _

/-- The projectile loop of `updateObjects` never claims a slot, and it changes the counter
only from a non-positive value to 6 while freeing a slot. -/
theorem updateShots_ammo (ext : Externals) (d : ℚ) (now : Nat) (l : List AmmoRound)
    (ac : Int) :
    inFlight (updateShots ext d now l ac).1 ≤ inFlight l ∧
      ((updateShots ext d now l ac).2 = ac ∨
        (ac ≤ 0 ∧ (updateShots ext d now l ac).2 = 6 ∧
          inFlight (updateShots ext d now l ac).1 < inFlight l)) := by
  induction l generalizing ac with
  | nil => exact ⟨le_refl _, Or.inl rfl⟩
  | cons shot rest ih =>
    simp only [updateShots]
    split
    · rename_i hne
      have hne2 : ¬ shot.type = ShotType.UNUSED := hne
      split
      · have h := ih (if ac ≤ 0 then 6 else ac)
        simp only [inFlight_cons, hne2, if_true, if_false]
        by_cases hac : ac ≤ 0
        · rw [if_pos hac] at h ⊢
          obtain ⟨h1, h2⟩ := h
          refine ⟨by omega, Or.inr ⟨hac, ?_, by omega⟩⟩
          rcases h2 with h2 | h2
          · exact h2
          · exact h2.2.1
        · rw [if_neg hac] at h ⊢
          obtain ⟨h1, h2⟩ := h
          refine ⟨by omega, Or.inl ?_⟩
          rcases h2 with h2 | h2
          · exact h2
          · exact absurd h2.1 hac
      · have h := ih ac
        simp only [inFlight_cons, hne2, if_false]
        omega
    · rename_i hne
      have h := ih ac
      have hu : shot.type = ShotType.UNUSED := by simpa using hne
      simp only [inFlight_cons, hu, if_true]
      omega

/-- The projectile loop of `generateContacts` never claims a slot, and it changes the counter
only from a non-positive value to 6 while freeing a slot. -/
theorem contactShots_ammo (ext : Externals) (o : ContactOracle) (i j : Nat)
    (l : List AmmoRound) (b : Bullseye) (ac : Int) :
    inFlight (contactShots ext o i j l b ac).ammo ≤ inFlight l ∧
      ((contactShots ext o i j l b ac).ammoCount = ac ∨
        (ac ≤ 0 ∧ (contactShots ext o i j l b ac).ammoCount = 6 ∧
          inFlight (contactShots ext o i j l b ac).ammo < inFlight l)) := by
  induction l generalizing j b ac with
  | nil => exact ⟨le_refl _, Or.inl rfl⟩
  | cons shot rest ih =>
    simp only [contactShots]
    split
    · rename_i hne
      have hne2 : ¬ shot.type = ShotType.UNUSED := hne
      split
      · exact ⟨le_refl _, Or.inl rfl⟩
      · split
        · have h := ih (j + 1) (strikeBullseye ext b shot) (if ac ≤ 0 then 6 else ac)
          simp only [inFlight_cons, hne2, if_true, if_false]
          by_cases hac : ac ≤ 0
          · rw [if_pos hac] at h ⊢
            obtain ⟨h1, h2⟩ := h
            refine ⟨by omega, Or.inr ⟨hac, ?_, by omega⟩⟩
            rcases h2 with h2 | h2
            · exact h2
            · exact h2.2.1
          · rw [if_neg hac] at h ⊢
            obtain ⟨h1, h2⟩ := h
            refine ⟨by omega, Or.inl ?_⟩
            rcases h2 with h2 | h2
            · exact h2
            · exact absurd h2.1 hac
        · have h := ih (j + 1) b ac
          simp only [inFlight_cons, hne2, if_false]
          omega
    · rename_i hne
      have h := ih (j + 1) b ac
      have hu : shot.type = ShotType.UNUSED := by simpa using hne
      simp only [inFlight_cons, hu, if_true]
      omega

/-- The target loop of `generateContacts` never claims a slot, and it changes the counter
only from a non-positive value to 6 while freeing a slot. -/
theorem contactBullseyes_ammo (ext : Externals) (o : ContactOracle) (i : Nat)
    (bs : List Bullseye) (ammo : List AmmoRound) (ac sc tr : Int) :
    inFlight (contactBullseyes ext o i bs ammo ac sc tr).ammo ≤ inFlight ammo ∧
      ((contactBullseyes ext o i bs ammo ac sc tr).ammoCount = ac ∨
        (ac ≤ 0 ∧ (contactBullseyes ext o i bs ammo ac sc tr).ammoCount = 6 ∧
          inFlight (contactBullseyes ext o i bs ammo ac sc tr).ammo < inFlight ammo)) := by
  induction bs generalizing i ammo ac sc tr with
  | nil => exact ⟨le_refl _, Or.inl rfl⟩
  | cons b rest ih =>
    simp only [contactBullseyes]
    split
    · exact ⟨le_refl _, Or.inl rfl⟩
    · have h1 := contactShots_ammo ext o i 0 ammo (planeStep o i b sc tr).1 ac
      split
      · exact h1
      · have h2 := ih (i + 1) (contactShots ext o i 0 ammo (planeStep o i b sc tr).1 ac).ammo
          (contactShots ext o i 0 ammo (planeStep o i b sc tr).1 ac).ammoCount
          (planeStep o i b sc tr).2.1 (planeStep o i b sc tr).2.2
        simp only
        omega

/-! ## Frame properties of the keys -/

theorem SameGame.rfl (s : State) : SameGame s s := ⟨Eq.refl _, Eq.refl _, Eq.refl _, Eq.refl _, Eq.refl _, Eq.refl _⟩

theorem SameCore.sameGame {s t : State} (h : SameCore s t) : SameGame s t :=
  ⟨h.1, h.2.1, h.2.2.1, h.2.2.2.1, h.2.2.2.2.1, h.2.2.2.2.2.1⟩

theorem keyW_sameGame (ext : Externals) (s : State) : SameGame s (keyW ext s) := by
  unfold keyW recomputeOffsets
  simp only
  split
  · exact SameGame.rfl s
  · split <;> exact SameGame.rfl s

theorem keyS_sameGame (ext : Externals) (s : State) : SameGame s (keyS ext s) := by
  unfold keyS recomputeOffsets
  simp only
  split
  · exact SameGame.rfl s
  · split <;> exact SameGame.rfl s

theorem keyA_sameGame (ext : Externals) (s : State) : SameGame s (keyA ext s) := by
  unfold keyA recomputeOffsets
  simp only
  split
  · exact SameGame.rfl s
  · split <;> exact SameGame.rfl s

theorem keyD_sameGame (ext : Externals) (s : State) : SameGame s (keyD ext s) := by
  unfold keyD recomputeOffsets
  simp only
  split
  · exact SameGame.rfl s
  · split <;> exact SameGame.rfl s

theorem keyW_range (ext : Externals) (s : State) (h : AimInRange s) :
    AimInRange (keyW ext s) := by
  obtain ⟨h1, h2, h3, h4⟩ := h
  unfold keyW recomputeOffsets AimInRange
  simp only
  split
  · simp only; refine ⟨?_, ?_, h3, h4⟩ <;> linarith
  · split
    · simp only; refine ⟨?_, ?_, h3, h4⟩ <;> norm_num
    · simp only; refine ⟨?_, ?_, h3, h4⟩ <;> linarith

theorem keyS_range (ext : Externals) (s : State) (h : AimInRange s) :
    AimInRange (keyS ext s) := by
  obtain ⟨h1, h2, h3, h4⟩ := h
  unfold keyS recomputeOffsets AimInRange
  simp only
  split
  · simp only; refine ⟨?_, ?_, h3, h4⟩ <;> linarith
  · split
    · simp only; refine ⟨?_, ?_, h3, h4⟩ <;> norm_num
    · simp only; refine ⟨?_, ?_, h3, h4⟩ <;> linarith

theorem keyA_range (ext : Externals) (s : State) (h : AimInRange s) :
    AimInRange (keyA ext s) := by
  obtain ⟨h1, h2, h3, h4⟩ := h
  unfold keyA recomputeOffsets AimInRange
  simp only
  split
  · simp only; refine ⟨h1, h2, ?_, ?_⟩ <;> linarith
  · split
    · simp only; refine ⟨h1, h2, ?_, ?_⟩ <;> norm_num
    · simp only; refine ⟨h1, h2, ?_, ?_⟩ <;> linarith

theorem keyD_range (ext : Externals) (s : State) (h : AimInRange s) :
    AimInRange (keyD ext s) := by
  obtain ⟨h1, h2, h3, h4⟩ := h
  unfold keyD recomputeOffsets AimInRange
  simp only
  split
  · simp only; refine ⟨h1, h2, ?_, ?_⟩ <;> linarith
  · split
    · simp only; refine ⟨h1, h2, ?_, ?_⟩ <;> norm_num
    · simp only; refine ⟨h1, h2, ?_, ?_⟩ <;> linarith

/-- The possible results of a key press. -/
theorem key_cases (ext : Externals) (now : Nat) (c : Char) (s t : State)
    (h : key ext now c s = some t) :
    t = keyW ext s ∨ t = keyS ext s ∨ t = keyA ext s ∨ t = keyD ext s ∨
      t = fire ext now s ∨ ((c = 'r' ∨ c = 'R') ∧ t = reset s) ∨ t = s := by
  unfold key at h
  split at h
  · exact Or.inl (Option.some.inj h).symm
  · split at h
    · exact Or.inr (Or.inl (Option.some.inj h).symm)
    · split at h
      · exact Or.inr (Or.inr (Or.inl (Option.some.inj h).symm))
      · split at h
        · exact Or.inr (Or.inr (Or.inr (Or.inl (Option.some.inj h).symm)))
        · split at h
          · exact Or.inr (Or.inr (Or.inr (Or.inr (Or.inl (Option.some.inj h).symm))))
          · split at h
            · rename_i hr
              exact Or.inr (Or.inr (Or.inr (Or.inr (Or.inr (Or.inl ⟨hr, (Option.some.inj h).symm⟩)))))
            · split at h
              · exact absurd h (by simp)
              · exact Or.inr (Or.inr (Or.inr (Or.inr (Or.inr (Or.inr (Option.some.inj h).symm)))))

/-! ## The search loop of `fire` -/

theorem firstUnused_le_length (l : List AmmoRound) : firstUnused l ≤ l.length := by
  induction l with
  | nil => exact le_refl _
  | cons shot rest ih =>
    simp only [firstUnused, List.length_cons]
    split <;> omega

theorem firstUnused_full (l : List AmmoRound)
    (h : ∀ shot ∈ l, shot.type ≠ ShotType.UNUSED) : firstUnused l = l.length := by
  induction l with
  | nil => rfl
  | cons shot rest ih =>
    have h1 : ¬ shot.type = ShotType.UNUSED := h shot (List.mem_cons_self _ _)
    have h2 := ih (fun a ha => h a (List.mem_cons_of_mem _ ha))
    simp only [firstUnused, h1, if_false, List.length_cons, h2]

theorem firstUnused_lt (l : List AmmoRound)
    (h : ∃ shot ∈ l, shot.type = ShotType.UNUSED) : firstUnused l < l.length := by
  induction l with
  | nil =>
    obtain ⟨a, ha, _⟩ := h
    exact absurd ha (List.not_mem_nil a)
  | cons shot rest ih =>
    simp only [firstUnused, List.length_cons]
    split
    · omega
    · rename_i hne
      obtain ⟨a, ha, hu⟩ := h
      rcases List.mem_cons.mp ha with rfl | hmem
      · exact absurd hu hne
      · have := ih ⟨a, hmem, hu⟩
        omega

/-- The slot at which the search stops is `UNUSED`. -/
theorem firstUnused_spec (l : List AmmoRound) (h : firstUnused l < l.length) :
    ∃ shot, l[firstUnused l]? = some shot ∧ shot.type = ShotType.UNUSED := by
  induction l with
  | nil => exact absurd h (Nat.not_lt_zero _)
  | cons shot rest ih =>
    by_cases hu : shot.type = ShotType.UNUSED
    · refine ⟨shot, ?_, hu⟩
      simp [firstUnused, hu]
    · simp only [firstUnused, hu, if_false, List.length_cons] at h ⊢
      obtain ⟨a, ha, hau⟩ := ih (by omega)
      exact ⟨a, by simpa using ha, hau⟩

/-- Every slot before the one at which the search stops is in flight. -/
theorem firstUnused_min (l : List AmmoRound) (k : Nat) (shot : AmmoRound)
    (hk : k < firstUnused l) (hs : l[k]? = some shot) : shot.type ≠ ShotType.UNUSED := by
  induction l generalizing k with
  | nil => simp at hs
  | cons a rest ih =>
    by_cases hu : a.type = ShotType.UNUSED
    · simp [firstUnused, hu] at hk
    · simp only [firstUnused, hu, if_false] at hk
      cases k with
      | zero =>
        simp at hs
        subst hs
        exact hu
      | succ k =>
        simp at hs
        exact ih k (by omega) hs

theorem fire_full (ext : Externals) (now : Nat) (s : State)
    (h : ∀ shot ∈ s.ammo, shot.type ≠ ShotType.UNUSED) : fire ext now s = s := by
  unfold fire
  simp only [firstUnused_full _ h, ge_iff_le, le_refl, if_true]

theorem fire_of_lt (ext : Externals) (now : Nat) (s : State)
    (h : firstUnused s.ammo < s.ammo.length) :
    fire ext now s =
      { s with
        ammo := s.ammo.modify
          (fun a => a.setState ext now currentShotType (s.cameraOffsetWorld - s.ammoOffsetWorld)
            s.gunEuler) (firstUnused s.ammo)
        ammoCount := if s.ammoCount > 0 then s.ammoCount - 1 else s.ammoCount } := by
  unfold fire
  simp only [ge_iff_le, Nat.not_le.mpr h, if_false]

theorem fire_ammoCount (ext : Externals) (now : Nat) (s : State) :
    (fire ext now s).ammoCount = s.ammoCount ∨
      (0 < s.ammoCount ∧ (fire ext now s).ammoCount = s.ammoCount - 1) := by
  unfold fire
  simp only
  split
  · exact Or.inl rfl
  · by_cases h : s.ammoCount > 0
    · exact Or.inr ⟨h, by simp only [h, if_true]⟩
    · exact Or.inl (by simp only [h, if_false])

theorem fire_frame (ext : Externals) (now : Nat) (s : State) :
    (fire ext now s).gunEuler = s.gunEuler ∧ (fire ext now s).score = s.score ∧
      (fire ext now s).targetsRemaining = s.targetsRemaining ∧
      (fire ext now s).bullseyeData = s.bullseyeData := by
  unfold fire
  simp only
  split <;> exact ⟨rfl, rfl, rfl, rfl⟩

/-! ## Invariants of a running program -/

theorem reset_inv (s : State) (h : s.WF) (h0 : 0 ≤ s.ammoCount) (h6 : s.ammoCount ≤ 6) :
    Inv (reset s) := by
  refine ⟨reset_wf s h, h0, h6, ?_⟩
  simp only [AimInRange, reset]
  norm_num

theorem sameGame_inv {s t : State} (h : SameGame s t) (hi : Inv s) (ha : AimInRange t) :
    Inv t := by
  obtain ⟨h1, h2, h3, h4, -, -⟩ := h
  obtain ⟨⟨w1, w2, w3⟩, i0, i6, -⟩ := hi
  exact ⟨⟨by rw [h2]; exact w1, by rw [h3]; exact w2, by rw [h4]; exact w3⟩,
    by rw [h1]; exact i0, by rw [h1]; exact i6, ha⟩

theorem fire_inv (ext : Externals) (now : Nat) (s : State) (hi : Inv s) :
    Inv (fire ext now s) := by
  obtain ⟨w, i0, i6, ha⟩ := hi
  refine ⟨fire_wf ext now s w, ?_, ?_, ?_⟩
  · rcases fire_ammoCount ext now s with h | ⟨h1, h2⟩ <;> omega
  · rcases fire_ammoCount ext now s with h | ⟨h1, h2⟩ <;> omega
  · unfold AimInRange
    rw [(fire_frame ext now s).1]
    exact ha

theorem updateObjects_inv (ext : Externals) (d : ℚ) (now : Nat) (s : State) (hi : Inv s) :
    Inv (updateObjects ext d now s) := by
  obtain ⟨w, i0, i6, ha⟩ := hi
  have h := (updateShots_ammo ext d now s.ammo s.ammoCount).2
  refine ⟨updateObjects_wf ext d now s w, ?_, ?_, ha⟩
  · show 0 ≤ (updateShots ext d now s.ammo s.ammoCount).2
    omega
  · show (updateShots ext d now s.ammo s.ammoCount).2 ≤ 6
    omega

theorem generateContacts_inv (ext : Externals) (o : ContactOracle) (s : State) (hi : Inv s) :
    Inv (generateContacts ext o s) := by
  obtain ⟨w, i0, i6, ha⟩ := hi
  have h := (contactBullseyes_ammo ext o 0 s.bullseyeData s.ammo s.ammoCount s.score
    s.targetsRemaining).2
  refine ⟨generateContacts_wf ext o s w, ?_, ?_, ha⟩
  · show 0 ≤ (contactBullseyes ext o 0 s.bullseyeData s.ammo s.ammoCount s.score
      s.targetsRemaining).ammoCount
    omega
  · show (contactBullseyes ext o 0 s.bullseyeData s.ammo s.ammoCount s.score
      s.targetsRemaining).ammoCount ≤ 6
    omega

theorem key_inv (ext : Externals) (now : Nat) (c : Char) (s t : State) (hi : Inv s)
    (h : key ext now c s = some t) : Inv t := by
  rcases key_cases ext now c s t h with rfl | rfl | rfl | rfl | rfl | ⟨-, rfl⟩ | rfl
  · exact sameGame_inv (keyW_sameGame ext s) hi (keyW_range ext s hi.2.2.2)
  · exact sameGame_inv (keyS_sameGame ext s) hi (keyS_range ext s hi.2.2.2)
  · exact sameGame_inv (keyA_sameGame ext s) hi (keyA_range ext s hi.2.2.2)
  · exact sameGame_inv (keyD_sameGame ext s) hi (keyD_range ext s hi.2.2.2)
  · exact fire_inv ext now s hi
  · exact reset_inv s hi.1 hi.2.1 hi.2.2.1
  · exact hi

theorem specialKey_inv (k : Int) (s : State) (hi : Inv s) : Inv (specialKey k s) := by
  have h := specialKey_sameCore k s
  refine sameGame_inv h.sameGame hi ?_
  unfold AimInRange
  rw [h.2.2.2.2.2.2.2]
  exact hi.2.2.2

theorem exec_inv (ext : Externals) (c : Command) (s t : State) (hi : Inv s)
    (h : exec ext c s = some t) : Inv t := by
  cases c with
  | fire now => cases Option.some.inj h; exact fire_inv ext now s hi
  | reset => cases Option.some.inj h; exact reset_inv s hi.1 hi.2.1 hi.2.2.1
  | updateObjects d now => cases Option.some.inj h; exact updateObjects_inv ext d now s hi
  | generateContacts o => cases Option.some.inj h; exact generateContacts_inv ext o s hi
  | key c now => exact key_inv ext now c s t hi h
  | specialKey k => cases Option.some.inj h; exact specialKey_inv k s hi

theorem reachable_inv (ext : Externals) (s : State) (h : Reachable ext s) : Inv s := by
  induction h with
  | init s0 hc =>
    obtain ⟨w, h6, -⟩ := hc
    exact reset_inv s0 w (by omega) (by omega)
  | step c s t _ hex ih => exact exec_inv ext c s t ih hex

/-! ## Reachability of the sample states -/

theorem reachable_run (ext : Externals) (cmds : List Command) (s t : State)
    (hs : Reachable ext s) (h : run ext cmds s = some t) : Reachable ext t := by
  induction cmds generalizing s with
  | nil =>
    cases Option.some.inj h
    exact hs
  | cons c cs ih =>
    simp only [run] at h
    cases hc : exec ext c s with
    | none => simp [hc] at h
    | some u =>
      rw [hc] at h
      exact ih u (Reachable.step c s u hs hc) h

theorem blankState_constructed : Constructed blankState := by
  refine ⟨⟨rfl, rfl, rfl⟩, rfl, rfl, rfl, rfl, rfl, rfl, rfl, rfl, ?_⟩
  intro b hb
  rw [List.eq_of_mem_replicate hb]
  rfl

theorem startState_reachable : Reachable sampleExt startState :=
  Reachable.init blankState blankState_constructed

theorem fullState_reachable : Reachable sampleExt fullState :=
  reachable_run sampleExt sixFires startState fullState startState_reachable rfl

theorem dryState_reachable : Reachable sampleExt dryState :=
  reachable_run sampleExt dryRun startState dryState startState_reachable rfl

/-! ## What `fire` does to the pool -/

theorem setState_pistol (ext : Externals) (now : Nat) (a : AmmoRound) (pos ang : Vector3) :
    (a.setState ext now currentShotType pos ang).type = ShotType.PISTOL ∧
      (a.setState ext now currentShotType pos ang).startTime = now ∧
      (a.setState ext now currentShotType pos ang).body.position = pos ∧
      (a.setState ext now currentShotType pos ang).body.velocity =
        ext.computeRotatedVector ⟨0, 0, 20⟩ ang :=
  ⟨rfl, rfl, rfl, rfl⟩

/-- With a free slot, `fire` rewrites exactly the first `UNUSED` slot. -/
theorem fire_slots (ext : Externals) (now : Nat) (s : State)
    (h : ∃ shot ∈ s.ammo, shot.type = ShotType.UNUSED) :
    ∃ old, s.ammo[firstUnused s.ammo]? = some old ∧ old.type = ShotType.UNUSED ∧
      (∀ k shot, k < firstUnused s.ammo → s.ammo[k]? = some shot →
        shot.type ≠ ShotType.UNUSED) ∧
      (fire ext now s).ammo[firstUnused s.ammo]? =
        some (old.setState ext now currentShotType (s.cameraOffsetWorld - s.ammoOffsetWorld)
          s.gunEuler) ∧
      (∀ k, k ≠ firstUnused s.ammo → (fire ext now s).ammo[k]? = s.ammo[k]?) ∧
      (fire ext now s).ammoCount = (if s.ammoCount > 0 then s.ammoCount - 1 else s.ammoCount) ∧
      (fire ext now s).score = s.score ∧
      (fire ext now s).targetsRemaining = s.targetsRemaining := by
  have hlt := firstUnused_lt s.ammo h
  obtain ⟨old, hold, hu⟩ := firstUnused_spec s.ammo hlt
  refine ⟨old, hold, hu, fun k shot hk hs => firstUnused_min s.ammo k shot hk hs, ?_, ?_, ?_, ?_, ?_⟩
  · rw [fire_of_lt ext now s hlt]
    simp only [List.getElem?_modify_eq, hold, Option.map_eq_map, Option.map_some']
  · intro k hk
    rw [fire_of_lt ext now s hlt]
    simp only [List.getElem?_modify_ne _ _ (Ne.symm hk)]
  · rw [fire_of_lt ext now s hlt]
  · exact (fire_frame ext now s).2.1
  · exact (fire_frame ext now s).2.2.1

/-! ## Projectile pool and ammunition counter -/

/-- C2, pool exclusivity: in every reachable state at most 6 projectile slots have a type
other than `UNUSED`; and in every state whose 6 slots are all in flight `fire` is a no-op,
the whole state (every slot with its type, start time and body, `ammoCount`, `score`,
`targetsRemaining`) coming back unchanged. -/
theorem pool_exclusivity (ext : Externals) (now : Nat) (s : State) :
    (Reachable ext s → inFlight s.ammo ≤ 6) ∧
      (s.ammo.length = 6 → inFlight s.ammo = 6 → fire ext now s = s) := by
  constructor
  · intro hs
    have hw := (reachable_inv ext s hs).1.1
    have hle := inFlight_le_length s.ammo
    rw [hw] at hle
    exact hle
  · intro hlen hall
    apply fire_full
    intro shot hmem
    have hc : inFlight s.ammo = s.ammo.length := by rw [hall, hlen]
    have hp := (List.countP_eq_length (p := fun shot : AmmoRound =>
      decide (shot.type ≠ ShotType.UNUSED))).mp hc shot hmem
    simpa using hp

/-- Evaluation of C2 at the state reached by six shots in one frame. -/
theorem pool_exclusivity_witness :
    Reachable sampleExt fullState ∧ inFlight fullState.ammo ≤ 6 ∧
      fullState.ammo.length = 6 ∧ inFlight fullState.ammo = 6 ∧
      fire sampleExt 7 fullState = fullState :=
  ⟨fullState_reachable, (pool_exclusivity sampleExt 7 fullState).1 fullState_reachable,
    by decide, by decide, (pool_exclusivity sampleExt 7 fullState).2 (by decide) (by decide)⟩

/-- C3, `fire` claims the lowest-index free slot: when some slot is `UNUSED` there is an
index `j` holding an `UNUSED` slot with every slot before it in flight, and after `fire`
slot `j` has type `PISTOL`, start time equal to the frame timestamp, position
`cameraOffsetWorld - ammoOffsetWorld` and velocity
`computeRotatedVector((0,0,20), gunEuler)`; every other slot is unchanged; `ammoCount` drops
by one if it was positive and is unchanged otherwise. -/
theorem fire_claims_lowest_unused (ext : Externals) (now : Nat) (s : State)
    (h : ∃ shot ∈ s.ammo, shot.type = ShotType.UNUSED) :
    ∃ (j : Nat) (old new : AmmoRound), s.ammo[j]? = some old ∧ old.type = ShotType.UNUSED ∧
      (∀ (k : Nat) (shot : AmmoRound), k < j → s.ammo[k]? = some shot → shot.type ≠ ShotType.UNUSED) ∧
      (fire ext now s).ammo[j]? = some new ∧ new.type = ShotType.PISTOL ∧
      new.startTime = now ∧
      new.body.position = s.cameraOffsetWorld - s.ammoOffsetWorld ∧
      new.body.velocity = ext.computeRotatedVector ⟨0, 0, 20⟩ s.gunEuler ∧
      (∀ k : Nat, k ≠ j → (fire ext now s).ammo[k]? = s.ammo[k]?) ∧
      (fire ext now s).ammo.length = s.ammo.length ∧
      (fire ext now s).ammoCount =
        (if s.ammoCount > 0 then s.ammoCount - 1 else s.ammoCount) ∧
      (fire ext now s).ammoCount ≤ s.ammoCount := by
  obtain ⟨old, h1, h2, h3, h4, h5, h6, -, -⟩ := fire_slots ext now s h
  have hp := setState_pistol ext now old (s.cameraOffsetWorld - s.ammoOffsetWorld) s.gunEuler
  refine ⟨firstUnused s.ammo, old, _, h1, h2, h3, h4, hp.1, hp.2.1, hp.2.2.1, hp.2.2.2, h5,
    ?_, h6, ?_⟩
  · rw [fire_of_lt ext now s (firstUnused_lt s.ammo h)]
    simp only [List.length_modify]
  · rcases fire_ammoCount ext now s with e | ⟨-, e⟩ <;> omega

/-- Evaluation of C3 at the freshly constructed state. -/
theorem fire_claims_lowest_unused_witness :
    (∃ shot ∈ startState.ammo, shot.type = ShotType.UNUSED) ∧
      ∃ (j : Nat) (old new : AmmoRound), startState.ammo[j]? = some old ∧ old.type = ShotType.UNUSED ∧
        (∀ (k : Nat) (shot : AmmoRound), k < j → startState.ammo[k]? = some shot → shot.type ≠ ShotType.UNUSED) ∧
        (fire sampleExt 42 startState).ammo[j]? = some new ∧ new.type = ShotType.PISTOL ∧
        new.startTime = 42 ∧
        new.body.position = startState.cameraOffsetWorld - startState.ammoOffsetWorld ∧
        new.body.velocity = sampleExt.computeRotatedVector ⟨0, 0, 20⟩ startState.gunEuler ∧
        (∀ k : Nat, k ≠ j → (fire sampleExt 42 startState).ammo[k]? = startState.ammo[k]?) ∧
        (fire sampleExt 42 startState).ammo.length = startState.ammo.length ∧
        (fire sampleExt 42 startState).ammoCount =
          (if startState.ammoCount > 0 then startState.ammoCount - 1
            else startState.ammoCount) ∧
        (fire sampleExt 42 startState).ammoCount ≤ startState.ammoCount :=
  have h : ∃ shot ∈ startState.ammo, shot.type = ShotType.UNUSED :=
    ⟨blankShot ShotType.UNUSED, by decide, rfl⟩
  ⟨h, fire_claims_lowest_unused sampleExt 42 startState h⟩

/-- C4, ammunition conservation: in every reachable state `0 ≤ ammoCount ≤ 6`; `fire` never
raises `ammoCount`; and a command that takes `ammoCount` from a value other than 6 to 6 is
`updateObjects` or `generateContacts`, started with `ammoCount = 0`, and leaves fewer slots
in flight than it found (it frees a projectile slot). -/
theorem ammo_conservation (ext : Externals) (s : State) (hs : Reachable ext s) :
    (0 ≤ s.ammoCount ∧ s.ammoCount ≤ 6) ∧
      (∀ now, (fire ext now s).ammoCount ≤ s.ammoCount) ∧
      ∀ c t, exec ext c s = some t → s.ammoCount ≠ 6 → t.ammoCount = 6 →
        ((∃ d now, c = Command.updateObjects d now) ∨ ∃ o, c = Command.generateContacts o) ∧
          s.ammoCount = 0 ∧ inFlight t.ammo < inFlight s.ammo := by
  obtain ⟨-, h0, h6, -⟩ := reachable_inv ext s hs
  have hfire : ∀ now, (fire ext now s).ammoCount ≤ s.ammoCount := by
    intro now
    rcases fire_ammoCount ext now s with e | ⟨-, e⟩ <;> omega
  refine ⟨⟨h0, h6⟩, hfire, ?_⟩
  intro c t hex hne ht
  cases c with
  | fire now =>
    cases Option.some.inj hex
    have := hfire now
    omega
  | reset =>
    cases Option.some.inj hex
    exact absurd ht hne
  | updateObjects d now =>
    cases Option.some.inj hex
    have h := (updateShots_ammo ext d now s.ammo s.ammoCount).2
    have ht2 : (updateShots ext d now s.ammo s.ammoCount).2 = 6 := ht
    rcases h with e | ⟨e1, -, e3⟩
    · omega
    · exact ⟨Or.inl ⟨d, now, rfl⟩, by omega, e3⟩
  | generateContacts o =>
    cases Option.some.inj hex
    have h := (contactBullseyes_ammo ext o 0 s.bullseyeData s.ammo s.ammoCount s.score
      s.targetsRemaining).2
    have ht2 : (contactBullseyes ext o 0 s.bullseyeData s.ammo s.ammoCount s.score
      s.targetsRemaining).ammoCount = 6 := ht
    rcases h with e | ⟨e1, -, e3⟩
    · omega
    · exact ⟨Or.inr ⟨o, rfl⟩, by omega, e3⟩
  | key c now =>
    rcases key_cases ext now c s t hex with rfl | rfl | rfl | rfl | rfl | ⟨-, rfl⟩ | rfl
    · exact absurd ((keyW_sameGame ext s).1.symm.trans ht) hne
    · exact absurd ((keyS_sameGame ext s).1.symm.trans ht) hne
    · exact absurd ((keyA_sameGame ext s).1.symm.trans ht) hne
    · exact absurd ((keyD_sameGame ext s).1.symm.trans ht) hne
    · have := hfire now
      omega
    · exact absurd ht hne
    · exact absurd ht hne
  | specialKey k =>
    cases Option.some.inj hex
    exact absurd ((specialKey_sameCore k s).1.symm.trans ht) hne

/-- Evaluation of C4 at the state reached by six shots: the next frame expires them all and
refills the counter. -/
theorem ammo_conservation_witness :
    Reachable sampleExt fullState ∧
      exec sampleExt (Command.updateObjects (1 / 20) 6000) fullState =
        some (updateObjects sampleExt (1 / 20) 6000 fullState) ∧
      fullState.ammoCount ≠ 6 ∧ (updateObjects sampleExt (1 / 20) 6000 fullState).ammoCount = 6 ∧
      fullState.ammoCount = 0 ∧
      inFlight (updateObjects sampleExt (1 / 20) 6000 fullState).ammo < inFlight fullState.ammo :=
  have h1 : fullState.ammoCount ≠ 6 := by decide
  have h2 : (updateObjects sampleExt (1 / 20) 6000 fullState).ammoCount = 6 := by
    with_unfolding_all decide
  have h := (ammo_conservation sampleExt fullState fullState_reachable).2.2
    (Command.updateObjects (1 / 20) 6000) (updateObjects sampleExt (1 / 20) 6000 fullState) rfl h1 h2
  ⟨fullState_reachable, rfl, h1, h2, h.2.1, h.2.2⟩

/-- C5, as the code behaves: firing with `ammoCount = 0` leaves `ammoCount` at 0, but the
pool is searched all the same.  If no slot is `UNUSED` the state is unchanged; otherwise the
lowest-index `UNUSED` slot is claimed (its type becomes `PISTOL`) and every other slot is
unchanged. -/
theorem fire_at_zero_ammo (ext : Externals) (now : Nat) (s : State) (h0 : s.ammoCount = 0) :
    (fire ext now s).ammoCount = 0 ∧
      ((∀ shot ∈ s.ammo, shot.type ≠ ShotType.UNUSED) → fire ext now s = s) ∧
      ((∃ shot ∈ s.ammo, shot.type = ShotType.UNUSED) →
        ∃ (j : Nat) (old new : AmmoRound), s.ammo[j]? = some old ∧ old.type = ShotType.UNUSED ∧
          (∀ (k : Nat) (shot : AmmoRound), k < j → s.ammo[k]? = some shot → shot.type ≠ ShotType.UNUSED) ∧
          (fire ext now s).ammo[j]? = some new ∧ new.type = ShotType.PISTOL ∧
          ∀ k : Nat, k ≠ j → (fire ext now s).ammo[k]? = s.ammo[k]?) := by
  refine ⟨?_, fire_full ext now s, ?_⟩
  · rcases fire_ammoCount ext now s with e | ⟨e1, -⟩ <;> omega
  · intro h
    obtain ⟨old, h1, h2, h3, h4, h5, -, -, -⟩ := fire_slots ext now s h
    exact ⟨firstUnused s.ammo, old, _, h1, h2, h3, h4,
      (setState_pistol ext now old (s.cameraOffsetWorld - s.ammoOffsetWorld) s.gunEuler).1, h5⟩

/-- Evaluation of the amended C5 at a reachable state with an empty counter and free slots. -/
theorem fire_at_zero_ammo_witness :
    dryState.ammoCount = 0 ∧ (∃ shot ∈ dryState.ammo, shot.type = ShotType.UNUSED) ∧
      (fire sampleExt 6000 dryState).ammoCount = 0 ∧
      ∃ (j : Nat) (old new : AmmoRound), dryState.ammo[j]? = some old ∧
        old.type = ShotType.UNUSED ∧
        (∀ (k : Nat) (shot : AmmoRound), k < j → dryState.ammo[k]? = some shot →
          shot.type ≠ ShotType.UNUSED) ∧
        (fire sampleExt 6000 dryState).ammo[j]? = some new ∧ new.type = ShotType.PISTOL ∧
        ∀ k : Nat, k ≠ j → (fire sampleExt 6000 dryState).ammo[k]? = dryState.ammo[k]? :=
  have h0 : dryState.ammoCount = 0 := by with_unfolding_all decide
  have hu : ∃ shot ∈ dryState.ammo, shot.type = ShotType.UNUSED := by
    with_unfolding_all decide
  ⟨h0, hu, (fire_at_zero_ammo sampleExt 6000 dryState h0).1,
    (fire_at_zero_ammo sampleExt 6000 dryState h0).2.2 hu⟩

/-- C5 fails as stated: `dryState` is reachable, has `ammoCount = 0` and slot 3 `UNUSED`,
and `fire` turns slot 3 into a `PISTOL` round, so a projectile slot is consumed. -/
theorem fire_at_zero_ammo_consumes_slot :
    Reachable sampleExt dryState ∧ dryState.ammoCount = 0 ∧
      dryState.shotType 3 = ShotType.UNUSED ∧
      (fire sampleExt 6000 dryState).shotType 3 = ShotType.PISTOL ∧
      ¬ (∀ j, (fire sampleExt 6000 dryState).shotType j = dryState.shotType j) :=
  have h1 : dryState.shotType 3 = ShotType.UNUSED := by with_unfolding_all decide
  have h2 : (fire sampleExt 6000 dryState).shotType 3 = ShotType.PISTOL := by
    with_unfolding_all decide
  ⟨dryState_reachable, by with_unfolding_all decide, h1, h2,
    fun h => absurd (h1.symm.trans ((h 3).symm.trans h2) : ShotType.UNUSED = ShotType.PISTOL)
      (by decide)⟩

/-! ## Scoring in `generateContacts` -/

theorem newlyHit_cons (b c : Bullseye) (l m : List Bullseye) :
    newlyHit (b :: l) (c :: m) = newlyHit l m + (if (!b.hit && c.hit) = true then 1 else 0) := by
  simp only [newlyHit, List.zip_cons_cons, List.countP_cons]

theorem newlyHit_self (l : List Bullseye) : newlyHit l l = 0 := by
  induction l with
  | nil => rfl
  | cons b rest ih =>
    rw [newlyHit_cons, ih]
    cases b.hit <;> rfl

theorem hitsKept_self (l : List Bullseye) : HitsKept l l := by
  induction l with
  | nil => exact List.Forall₂.nil
  | cons b rest ih => exact List.Forall₂.cons (fun h => h) ih

theorem hitsKept_trans {l m n : List Bullseye} (h1 : HitsKept l m) (h2 : HitsKept m n) :
    HitsKept l n := by
  induction h1 generalizing n with
  | nil =>
    cases h2
    exact List.Forall₂.nil
  | cons hab _ ih =>
    cases h2 with
    | cons hbc htl => exact List.Forall₂.cons (fun h => hbc (hab h)) (ih htl)

/-- Under `HitsKept`, strikes add up along a run. -/
theorem newlyHit_trans {l m n : List Bullseye} (h1 : HitsKept l m) (h2 : HitsKept m n) :
    newlyHit l n = newlyHit l m + newlyHit m n := by
  induction h1 generalizing n with
  | nil =>
    cases h2
    rfl
  | @cons a b l1 l2 hab _ ih =>
    cases h2 with
    | @cons _ c _ l3 hbc htl =>
      rw [newlyHit_cons, newlyHit_cons, newlyHit_cons, ih htl]
      revert hab hbc
      cases a.hit <;> cases b.hit <;> cases c.hit <;> simp <;> omega

theorem hitsKept_index {l m : List Bullseye} (h : HitsKept l m) (i : Nat) (b c : Bullseye)
    (hb : l[i]? = some b) (hc : m[i]? = some c) : b.hit = true → c.hit = true := by
  induction h generalizing i with
  | nil => simp at hb
  | cons hab _ ih =>
    cases i with
    | zero =>
      simp at hb hc
      subst hb
      subst hc
      exact hab
    | succ i =>
      simp at hb hc
      exact ih i hb hc

theorem strikeBullseye_hit (ext : Externals) (b : Bullseye) (shot : AmmoRound) :
    (strikeBullseye ext b shot).hit = b.hit := rfl

theorem contactShots_hit (ext : Externals) (o : ContactOracle) (i j : Nat)
    (l : List AmmoRound) (b : Bullseye) (ac : Int) :
    (contactShots ext o i j l b ac).bullseye.hit = b.hit := by
  induction l generalizing j b ac with
  | nil => rfl
  | cons shot rest ih =>
    simp only [contactShots]
    split
    · split
      · rfl
      · split
        · simp only [ih, strikeBullseye_hit]
        · simp only [ih]
    · simp only [ih]

/-- The ground-plane test sets the flag when positive, and scores exactly when the flag was
clear and the test is positive. -/
theorem planeStep_spec (o : ContactOracle) (i : Nat) (b : Bullseye) (sc tr : Int) :
    (planeStep o i b sc tr).1.hit = (b.hit || o.boxAndHalfSpace i) ∧
      (planeStep o i b sc tr).2.1 =
        sc + (if (!b.hit && o.boxAndHalfSpace i) = true then 1 else 0) ∧
      (planeStep o i b sc tr).2.2 =
        tr - (if (!b.hit && o.boxAndHalfSpace i) = true then 1 else 0) := by
  unfold planeStep planeContact
  cases hb : b.hit <;> cases ho : o.boxAndHalfSpace i <;> simp [hb]

/-- Scoring of the target loop: the score rises, and the target count falls, by the number
of targets whose flag the loop sets. -/
theorem contactBullseyes_score (ext : Externals) (o : ContactOracle) (i : Nat)
    (bs : List Bullseye) (ammo : List AmmoRound) (ac sc tr : Int) :
    HitsKept bs (contactBullseyes ext o i bs ammo ac sc tr).bullseyeData ∧
      (contactBullseyes ext o i bs ammo ac sc tr).score =
        sc + newlyHit bs (contactBullseyes ext o i bs ammo ac sc tr).bullseyeData ∧
      (contactBullseyes ext o i bs ammo ac sc tr).targetsRemaining =
        tr - newlyHit bs (contactBullseyes ext o i bs ammo ac sc tr).bullseyeData := by
  induction bs generalizing i ammo ac sc tr with
  | nil => exact ⟨List.Forall₂.nil, by simp [contactBullseyes, newlyHit], by
      simp [contactBullseyes, newlyHit]⟩
  | cons b rest ih =>
    simp only [contactBullseyes]
    split
    · exact ⟨hitsKept_self _, by simp [newlyHit_self], by simp [newlyHit_self]⟩
    · obtain ⟨p1, p2, p3⟩ := planeStep_spec o i b sc tr
      have hh := contactShots_hit ext o i 0 ammo (planeStep o i b sc tr).1 ac
      have hkeep : b.hit = true →
          (contactShots ext o i 0 ammo (planeStep o i b sc tr).1 ac).bullseye.hit = true := by
        intro hb
        rw [hh, p1, hb]
        rfl
      have hdelta : ((!b.hit &&
          (contactShots ext o i 0 ammo (planeStep o i b sc tr).1 ac).bullseye.hit) = true) ↔
          ((!b.hit && o.boxAndHalfSpace i) = true) := by
        rw [hh, p1]
        cases b.hit <;> cases o.boxAndHalfSpace i <;> simp
      split
      · refine ⟨List.Forall₂.cons hkeep (hitsKept_self _), ?_, ?_⟩
        · show (planeStep o i b sc tr).2.1 = _
          rw [newlyHit_cons, newlyHit_self, p2]
          by_cases hd : (!b.hit && o.boxAndHalfSpace i) = true
          · simp [hd, hdelta.mpr hd]
          · simp [hd, mt hdelta.mp hd]
        · show (planeStep o i b sc tr).2.2 = _
          rw [newlyHit_cons, newlyHit_self, p3]
          by_cases hd : (!b.hit && o.boxAndHalfSpace i) = true
          · simp [hd, hdelta.mpr hd]
          · simp [hd, mt hdelta.mp hd]
      · obtain ⟨q1, q2, q3⟩ := ih (i + 1)
          (contactShots ext o i 0 ammo (planeStep o i b sc tr).1 ac).ammo
          (contactShots ext o i 0 ammo (planeStep o i b sc tr).1 ac).ammoCount
          (planeStep o i b sc tr).2.1 (planeStep o i b sc tr).2.2
        refine ⟨List.Forall₂.cons hkeep q1, ?_, ?_⟩
        · simp only
          rw [newlyHit_cons, q2]
          generalize newlyHit rest _ = n
          rw [p2]
          by_cases hd : (!b.hit && o.boxAndHalfSpace i) = true
          · rw [if_pos hd, if_pos (hdelta.mpr hd)]
            push_cast
            ring
          · rw [if_neg hd, if_neg (mt hdelta.mp hd)]
            push_cast
            ring
        · simp only
          rw [newlyHit_cons, q3]
          generalize newlyHit rest _ = n
          rw [p3]
          by_cases hd : (!b.hit && o.boxAndHalfSpace i) = true
          · rw [if_pos hd, if_pos (hdelta.mpr hd)]
            push_cast
            ring
          · rw [if_neg hd, if_neg (mt hdelta.mp hd)]
            push_cast
            ring

/-- A flag that the target loop changes was clear, belongs to a target whose ground-plane
test was positive, and ends up set. -/
theorem contactBullseyes_hit_cause (ext : Externals) (o : ContactOracle) (i : Nat)
    (bs : List Bullseye) (ammo : List AmmoRound) (ac sc tr : Int) (k : Nat) (b c : Bullseye)
    (hb : bs[k]? = some b)
    (hc : (contactBullseyes ext o i bs ammo ac sc tr).bullseyeData[k]? = some c) :
    c.hit = (b.hit || c.hit) ∧ (c.hit ≠ b.hit → o.boxAndHalfSpace (i + k) = true) := by
  induction bs generalizing i ammo ac sc tr k with
  | nil => simp at hb
  | cons a rest ih =>
    simp only [contactBullseyes] at hc
    split at hc
    · rw [hb] at hc
      cases Option.some.inj hc
      exact ⟨by cases b.hit <;> rfl, fun h => absurd rfl h⟩
    · obtain ⟨p1, -, -⟩ := planeStep_spec o i a sc tr
      have hh := contactShots_hit ext o i 0 ammo (planeStep o i a sc tr).1 ac
      have head : ∀ c : Bullseye,
          c = (contactShots ext o i 0 ammo (planeStep o i a sc tr).1 ac).bullseye →
          c.hit = (a.hit || c.hit) ∧ (c.hit ≠ a.hit → o.boxAndHalfSpace i = true) := by
        intro c hceq
        subst hceq
        rw [hh, p1]
        cases a.hit <;> cases o.boxAndHalfSpace i <;> simp
      cases k with
      | zero =>
        simp only [List.getElem?_cons_zero] at hb
        cases Option.some.inj hb
        rw [Nat.add_zero]
        split at hc
        · simp only [List.getElem?_cons_zero] at hc
          exact head c (Option.some.inj hc).symm
        · simp only [List.getElem?_cons_zero] at hc
          exact head c (Option.some.inj hc).symm
      | succ k =>
        simp only [List.getElem?_cons_succ] at hb
        split at hc
        · simp only [List.getElem?_cons_succ] at hc
          rw [hb] at hc
          cases Option.some.inj hc
          exact ⟨by cases b.hit <;> rfl, fun h => absurd rfl h⟩
        · simp only [List.getElem?_cons_succ] at hc
          have := ih (i + 1) _ _ _ _ k hb hc
          rw [show i + (k + 1) = i + 1 + k by omega]
          exact this

/-! ## Scoring along a run without reset -/

theorem newlyHit_add_hitCount_le (l m : List Bullseye) :
    newlyHit l m + hitCount l ≤ l.length := by
  induction l generalizing m with
  | nil => simp [newlyHit, hitCount]
  | cons b rest ih =>
    cases m with
    | nil => simpa [newlyHit] using List.countP_le_length (fun b : Bullseye => b.hit) (l := b :: rest)
    | cons c m =>
      have h := ih m
      rw [newlyHit_cons]
      simp only [hitCount, List.countP_cons, List.length_cons] at h ⊢
      cases b.hit <;> cases c.hit <;> simp <;> omega

theorem hitsKept_map (f : Bullseye → Bullseye) (hf : ∀ b, (f b).hit = b.hit)
    (l : List Bullseye) : HitsKept l (l.map f) ∧ newlyHit l (l.map f) = 0 := by
  induction l with
  | nil => exact ⟨List.Forall₂.nil, rfl⟩
  | cons b rest ih =>
    refine ⟨List.Forall₂.cons (fun h => by rw [hf, h]) ih.1, ?_⟩
    rw [List.map_cons, newlyHit_cons, ih.2, hf]
    cases b.hit <;> rfl

theorem updateBullseye_hit (ext : Externals) (d : ℚ) (b : Bullseye) :
    (updateBullseye ext d b).hit = b.hit := by
  unfold updateBullseye
  simp only
  split
  · rfl
  · split <;> rfl

theorem hitsKept_flag {l m : List Bullseye} (h : HitsKept l m) (s t : State)
    (hs : s.bullseyeData = l) (ht : t.bullseyeData = m) (i : Nat)
    (hi : s.hitFlag i = true) : t.hitFlag i = true := by
  have hlen : l.length = m.length := List.Forall₂.length_eq h
  unfold State.hitFlag at hi ⊢
  rw [hs] at hi
  rw [ht]
  cases hl : l[i]? with
  | none => simp [hl] at hi
  | some b =>
    rw [hl] at hi
    have hlt : i < l.length := (List.getElem?_eq_some_iff.mp hl).1
    cases hm : m[i]? with
    | none =>
      have := List.getElem?_eq_none_iff.mp hm
      omega
    | some c => exact hitsKept_index h i b c hl hm hi

theorem scored_of_same (s t : State) (h1 : t.bullseyeData = s.bullseyeData)
    (h2 : t.score = s.score) (h3 : t.targetsRemaining = s.targetsRemaining) : Scored s t := by
  unfold Scored
  rw [h1, h2, h3, newlyHit_self]
  exact ⟨hitsKept_self _, by simp, by simp⟩

theorem scored_trans {s t u : State} (h1 : Scored s t) (h2 : Scored t u) : Scored s u := by
  obtain ⟨a1, a2, a3⟩ := h1
  obtain ⟨b1, b2, b3⟩ := h2
  refine ⟨hitsKept_trans a1 b1, ?_, ?_⟩
  · rw [newlyHit_trans a1 b1, b2, a2]
    push_cast
    ring
  · rw [newlyHit_trans a1 b1, b3, a3]
    push_cast
    ring

theorem generateContacts_scored (ext : Externals) (o : ContactOracle) (s : State) :
    Scored s (generateContacts ext o s) :=
  contactBullseyes_score ext o 0 s.bullseyeData s.ammo s.ammoCount s.score s.targetsRemaining

theorem exec_scored (ext : Externals) (c : Command) (s t : State) (hc : c.isReset = false)
    (h : exec ext c s = some t) : Scored s t := by
  cases c with
  | fire now =>
    cases Option.some.inj h
    have hf := fire_frame ext now s
    exact scored_of_same _ _ hf.2.2.2 hf.2.1 hf.2.2.1
  | reset => simp [Command.isReset] at hc
  | updateObjects d now =>
    cases Option.some.inj h
    have hm := hitsKept_map (updateBullseye ext d) (updateBullseye_hit ext d) s.bullseyeData
    refine ⟨hm.1, ?_, ?_⟩
    · show s.score = s.score + ((newlyHit s.bullseyeData
        (s.bullseyeData.map (updateBullseye ext d)) : Nat) : Int)
      rw [hm.2]
      simp
    · show s.targetsRemaining = s.targetsRemaining - ((newlyHit s.bullseyeData
        (s.bullseyeData.map (updateBullseye ext d)) : Nat) : Int)
      rw [hm.2]
      simp
  | generateContacts o =>
    cases Option.some.inj h
    exact generateContacts_scored ext o s
  | key k now =>
    rcases key_cases ext now k s t h with rfl | rfl | rfl | rfl | rfl | ⟨hr, rfl⟩ | rfl
    · have hg := keyW_sameGame ext s
      exact scored_of_same _ _ hg.2.2.2.1 hg.2.2.2.2.1 hg.2.2.2.2.2
    · have hg := keyS_sameGame ext s
      exact scored_of_same _ _ hg.2.2.2.1 hg.2.2.2.2.1 hg.2.2.2.2.2
    · have hg := keyA_sameGame ext s
      exact scored_of_same _ _ hg.2.2.2.1 hg.2.2.2.2.1 hg.2.2.2.2.2
    · have hg := keyD_sameGame ext s
      exact scored_of_same _ _ hg.2.2.2.1 hg.2.2.2.2.1 hg.2.2.2.2.2
    · have hf := fire_frame ext now s
      exact scored_of_same _ _ hf.2.2.2 hf.2.1 hf.2.2.1
    · simp [Command.isReset, hr] at hc
      rcases hr with rfl | rfl <;> simp at hc
    · exact scored_of_same _ _ rfl rfl rfl
  | specialKey k =>
    cases Option.some.inj h
    have hg := (specialKey_sameCore k s).sameGame
    exact scored_of_same _ _ hg.2.2.2.1 hg.2.2.2.2.1 hg.2.2.2.2.2

theorem run_scored (ext : Externals) (cmds : List Command) (s t : State)
    (hc : ∀ c ∈ cmds, c.isReset = false) (h : run ext cmds s = some t) : Scored s t := by
  induction cmds generalizing s with
  | nil =>
    cases Option.some.inj h
    exact scored_of_same _ _ rfl rfl rfl
  | cons c cs ih =>
    simp only [run] at h
    cases hex : exec ext c s with
    | none => simp [hex] at h
    | some u =>
      rw [hex] at h
      exact scored_trans (exec_scored ext c s u (hc c (List.mem_cons_self _ _)) hex)
        (ih u (fun c hmem => hc c (List.mem_cons_of_mem _ hmem)) h)

/-- C1, at-most-once scoring.  For every state and every outcome of the collision tests:
a `hit` flag that `generateContacts` changes was `false`, belongs to a target whose
ground-plane test was positive, and is `true` afterwards; the call raises `score` and lowers
`targetsRemaining` by exactly the number of targets whose flag it set.  Over any sequence
of commands without a reset, set flags stay set and `score` rises by exactly the number of
targets whose flag went from `false` to `true`, so each target accounts for at most one
increment, and the total never exceeds the number of targets not yet hit at the start. -/
theorem at_most_once_scoring (ext : Externals) (s : State) :
    (∀ (o : ContactOracle) (i : Nat),
        (generateContacts ext o s).hitFlag i ≠ s.hitFlag i →
          s.hitFlag i = false ∧ o.boxAndHalfSpace i = true ∧
            (generateContacts ext o s).hitFlag i = true) ∧
      (∀ o : ContactOracle,
        (generateContacts ext o s).score =
            s.score + newlyHit s.bullseyeData (generateContacts ext o s).bullseyeData ∧
          (generateContacts ext o s).targetsRemaining =
            s.targetsRemaining -
              newlyHit s.bullseyeData (generateContacts ext o s).bullseyeData) ∧
      ∀ (cmds : List Command) (t : State), (∀ c ∈ cmds, c.isReset = false) →
        run ext cmds s = some t →
          (∀ i : Nat, s.hitFlag i = true → t.hitFlag i = true) ∧
            t.score = s.score + newlyHit s.bullseyeData t.bullseyeData ∧
            t.targetsRemaining = s.targetsRemaining - newlyHit s.bullseyeData t.bullseyeData ∧
            newlyHit s.bullseyeData t.bullseyeData + hitCount s.bullseyeData ≤
              s.bullseyeData.length := by
  refine ⟨?_, fun o => (generateContacts_scored ext o s).2, ?_⟩
  · intro o i hne
    have hlen := (contactBullseyes_length ext o 0 s.bullseyeData s.ammo s.ammoCount s.score
      s.targetsRemaining).1
    unfold State.hitFlag at hne ⊢
    have hbd : (generateContacts ext o s).bullseyeData =
        (contactBullseyes ext o 0 s.bullseyeData s.ammo s.ammoCount s.score
          s.targetsRemaining).bullseyeData := rfl
    rw [hbd] at hne ⊢
    cases hl : s.bullseyeData[i]? with
    | none =>
      have h1 := List.getElem?_eq_none_iff.mp hl
      have h2 : (contactBullseyes ext o 0 s.bullseyeData s.ammo s.ammoCount s.score
          s.targetsRemaining).bullseyeData[i]? = none :=
        List.getElem?_eq_none_iff.mpr (by omega)
      rw [hl, h2] at hne
      exact absurd rfl hne
    | some b =>
      have hlt : i < s.bullseyeData.length := (List.getElem?_eq_some_iff.mp hl).1
      cases hm : (contactBullseyes ext o 0 s.bullseyeData s.ammo s.ammoCount s.score
          s.targetsRemaining).bullseyeData[i]? with
      | none =>
        have := List.getElem?_eq_none_iff.mp hm
        omega
      | some c =>
        rw [hl, hm] at hne
        obtain ⟨e1, e2⟩ := contactBullseyes_hit_cause ext o 0 s.bullseyeData s.ammo s.ammoCount
          s.score s.targetsRemaining i b c hl hm
        rw [Nat.zero_add] at e2
        simp only at hne ⊢
        refine ⟨?_, e2 hne, ?_⟩
        · revert hne e1
          cases b.hit <;> cases c.hit <;> simp
        · revert hne e1
          cases b.hit <;> cases c.hit <;> simp
  · intro cmds t hc hrun
    obtain ⟨h1, h2, h3⟩ := run_scored ext cmds s t hc hrun
    exact ⟨fun i hi => hitsKept_flag h1 s t rfl rfl i hi, h2, h3,
      newlyHit_add_hitCount_le _ _⟩

/-- Evaluation of C1 on a run whose two contact frames report every test positive: the ten
targets score once each. -/
theorem at_most_once_scoring_witness :
    (∀ c ∈ loudRun, c.isReset = false) ∧ run sampleExt loudRun startState = some loudState ∧
      loudState.score = startState.score + newlyHit startState.bullseyeData
        loudState.bullseyeData ∧
      startState.score = 0 ∧ loudState.score = 10 :=
  have hc : ∀ c ∈ loudRun, c.isReset = false := by decide
  ⟨hc, rfl, ((at_most_once_scoring sampleExt startState).2.2 loudRun loudState hc rfl).2.1,
    rfl, by with_unfolding_all decide⟩

/-! ## Aiming -/

theorem exec_aim (ext : Externals) (c : Command) (s t : State) (hs : AimInRange s)
    (h : exec ext c s = some t) : AimInRange t := by
  cases c with
  | fire now =>
    cases Option.some.inj h
    unfold AimInRange
    rw [(fire_frame ext now s).1]
    exact hs
  | reset =>
    cases Option.some.inj h
    simp only [AimInRange, reset]
    norm_num
  | updateObjects d now =>
    cases Option.some.inj h
    exact hs
  | generateContacts o =>
    cases Option.some.inj h
    exact hs
  | key k now =>
    rcases key_cases ext now k s t h with rfl | rfl | rfl | rfl | rfl | ⟨-, rfl⟩ | rfl
    · exact keyW_range ext s hs
    · exact keyS_range ext s hs
    · exact keyA_range ext s hs
    · exact keyD_range ext s hs
    · unfold AimInRange
      rw [(fire_frame ext now s).1]
      exact hs
    · simp only [AimInRange, reset]
      norm_num
    · exact hs
  | specialKey k =>
    cases Option.some.inj h
    unfold AimInRange
    rw [(specialKey_sameCore k s).2.2.2.2.2.2.2]
    exact hs

theorem exec_some (ext : Externals) (c : Command) (s : State) (hc : c.exits = false) :
    ∃ t, exec ext c s = some t := by
  cases c with
  | fire now => exact ⟨_, rfl⟩
  | reset => exact ⟨_, rfl⟩
  | updateObjects d now => exact ⟨_, rfl⟩
  | generateContacts o => exact ⟨_, rfl⟩
  | key k now =>
    have hk : ¬ k = Char.ofNat 27 := by simpa [Command.exits] using hc
    simp only [exec, key, hk, if_false]
    split
    · exact ⟨_, rfl⟩
    · split
      · exact ⟨_, rfl⟩
      · split
        · exact ⟨_, rfl⟩
        · split
          · exact ⟨_, rfl⟩
          · split
            · exact ⟨_, rfl⟩
            · split <;> exact ⟨_, rfl⟩
  | specialKey k => exact ⟨_, rfl⟩

/-- C6, aim clamping: from any state with pitch in `[-70, 70]` and yaw in `[-90, 90]` (in
particular from `gunEuler = (0,0,0)`), every finite sequence of commands that does not quit
(the aim keys `w/W`, `s/S`, `a/A`, `d/D`, fire, reset, the arrow keys, and the frame
updates as well) runs to a state whose pitch is again in `[-70, 70]` and whose yaw is in
`[-90, 90]`. -/
theorem aim_clamping (ext : Externals) (cmds : List Command) (s : State)
    (hs : -70 ≤ s.gunEuler.x ∧ s.gunEuler.x ≤ 70 ∧ -90 ≤ s.gunEuler.y ∧ s.gunEuler.y ≤ 90)
    (hc : ∀ c ∈ cmds, c.exits = false) :
    ∃ t, run ext cmds s = some t ∧
      -70 ≤ t.gunEuler.x ∧ t.gunEuler.x ≤ 70 ∧ -90 ≤ t.gunEuler.y ∧ t.gunEuler.y ≤ 90 := by
  induction cmds generalizing s with
  | nil => exact ⟨s, rfl, hs⟩
  | cons c cs ih =>
    obtain ⟨u, hu⟩ := exec_some ext c s (hc c (List.mem_cons_self _ _))
    obtain ⟨t, ht, hr⟩ := ih u (exec_aim ext c s u hs hu)
      (fun c hmem => hc c (List.mem_cons_of_mem _ hmem))
    refine ⟨t, ?_, hr⟩
    simp only [run, hu, Option.bind_some]
    exact ht

/-- Evaluation of C6 on a mixed key sequence from the freshly constructed state. -/
theorem aim_clamping_witness :
    startState.gunEuler = ⟨0, 0, 0⟩ ∧ (∀ c ∈ aimRun, c.exits = false) ∧
      ∃ t, run sampleExt aimRun startState = some t ∧
        -70 ≤ t.gunEuler.x ∧ t.gunEuler.x ≤ 70 ∧ -90 ≤ t.gunEuler.y ∧ t.gunEuler.y ≤ 90 :=
  have hc : ∀ c ∈ aimRun, c.exits = false := by decide
  ⟨rfl, hc, aim_clamping sampleExt aimRun startState
    (by simp only [startState, reset]; norm_num) hc⟩

/-! ## The clamp and the world offsets -/

theorem keyW_spec (ext : Externals) (s : State) (hs : AimInRange s) :
    (-70 < s.gunEuler.x - 1 / 2 ∧ s.gunEuler.x - 1 / 2 < 70 →
        (keyW ext s).gunEuler = ⟨s.gunEuler.x - 1 / 2, s.gunEuler.y, s.gunEuler.z⟩ ∧
          (keyW ext s).aimOffsetWorld =
            ext.computeRotatedVector aimOffsetLocal (keyW ext s).gunEuler ∧
          (keyW ext s).ammoOffsetWorld =
            ext.computeRotatedVector ammoOffsetLocal (keyW ext s).gunEuler) ∧
      (¬ (-70 < s.gunEuler.x - 1 / 2 ∧ s.gunEuler.x - 1 / 2 < 70) →
        (keyW ext s).gunEuler = ⟨-70, s.gunEuler.y, s.gunEuler.z⟩ ∧
          (keyW ext s).aimOffsetWorld = s.aimOffsetWorld ∧
          (keyW ext s).ammoOffsetWorld = s.ammoOffsetWorld) := by
  obtain ⟨h1, h2, h3, h4⟩ := hs
  unfold keyW recomputeOffsets
  simp only
  constructor
  · intro hin
    split
    · exact ⟨rfl, rfl, rfl⟩
    · rename_i hn
      exact absurd (show _ from hin.1) hn
  · intro hout
    split
    · rename_i hp
      exact absurd ⟨by linarith, by linarith⟩ hout
    · split
      · exact ⟨rfl, rfl, rfl⟩
      · rename_i hn1 hn2
        have he : s.gunEuler.x - 1 / 2 = -70 := by linarith [not_lt.mp hn1, not_lt.mp hn2]
        refine ⟨?_, rfl, rfl⟩
        simp only [he]

theorem keyS_spec (ext : Externals) (s : State) (hs : AimInRange s) :
    (-70 < s.gunEuler.x + 1 / 2 ∧ s.gunEuler.x + 1 / 2 < 70 →
        (keyS ext s).gunEuler = ⟨s.gunEuler.x + 1 / 2, s.gunEuler.y, s.gunEuler.z⟩ ∧
          (keyS ext s).aimOffsetWorld =
            ext.computeRotatedVector aimOffsetLocal (keyS ext s).gunEuler ∧
          (keyS ext s).ammoOffsetWorld =
            ext.computeRotatedVector ammoOffsetLocal (keyS ext s).gunEuler) ∧
      (¬ (-70 < s.gunEuler.x + 1 / 2 ∧ s.gunEuler.x + 1 / 2 < 70) →
        (keyS ext s).gunEuler = ⟨70, s.gunEuler.y, s.gunEuler.z⟩ ∧
          (keyS ext s).aimOffsetWorld = s.aimOffsetWorld ∧
          (keyS ext s).ammoOffsetWorld = s.ammoOffsetWorld) := by
  obtain ⟨h1, h2, h3, h4⟩ := hs
  unfold keyS recomputeOffsets
  simp only
  constructor
  · intro hin
    split
    · exact ⟨rfl, rfl, rfl⟩
    · rename_i hn
      exact absurd (show _ from hin.2) hn
  · intro hout
    split
    · rename_i hp
      exact absurd ⟨by linarith, by linarith⟩ hout
    · split
      · exact ⟨rfl, rfl, rfl⟩
      · rename_i hn1 hn2
        have he : s.gunEuler.x + 1 / 2 = 70 := by linarith [not_lt.mp hn1, not_lt.mp hn2]
        refine ⟨?_, rfl, rfl⟩
        simp only [he]

theorem keyA_spec (ext : Externals) (s : State) (hs : AimInRange s) :
    (-90 < s.gunEuler.y + 1 / 2 ∧ s.gunEuler.y + 1 / 2 < 90 →
        (keyA ext s).gunEuler = ⟨s.gunEuler.x, s.gunEuler.y + 1 / 2, s.gunEuler.z⟩ ∧
          (keyA ext s).aimOffsetWorld =
            ext.computeRotatedVector aimOffsetLocal (keyA ext s).gunEuler ∧
          (keyA ext s).ammoOffsetWorld =
            ext.computeRotatedVector ammoOffsetLocal (keyA ext s).gunEuler) ∧
      (¬ (-90 < s.gunEuler.y + 1 / 2 ∧ s.gunEuler.y + 1 / 2 < 90) →
        (keyA ext s).gunEuler = ⟨s.gunEuler.x, 90, s.gunEuler.z⟩ ∧
          (keyA ext s).aimOffsetWorld = s.aimOffsetWorld ∧
          (keyA ext s).ammoOffsetWorld = s.ammoOffsetWorld) := by
  obtain ⟨h1, h2, h3, h4⟩ := hs
  unfold keyA recomputeOffsets
  simp only
  constructor
  · intro hin
    split
    · exact ⟨rfl, rfl, rfl⟩
    · rename_i hn
      exact absurd (show _ from hin.2) hn
  · intro hout
    split
    · rename_i hp
      exact absurd ⟨by linarith, by linarith⟩ hout
    · split
      · exact ⟨rfl, rfl, rfl⟩
      · rename_i hn1 hn2
        have he : s.gunEuler.y + 1 / 2 = 90 := by linarith [not_lt.mp hn1, not_lt.mp hn2]
        refine ⟨?_, rfl, rfl⟩
        simp only [he]

theorem keyD_spec (ext : Externals) (s : State) (hs : AimInRange s) :
    (-90 < s.gunEuler.y - 1 / 2 ∧ s.gunEuler.y - 1 / 2 < 90 →
        (keyD ext s).gunEuler = ⟨s.gunEuler.x, s.gunEuler.y - 1 / 2, s.gunEuler.z⟩ ∧
          (keyD ext s).aimOffsetWorld =
            ext.computeRotatedVector aimOffsetLocal (keyD ext s).gunEuler ∧
          (keyD ext s).ammoOffsetWorld =
            ext.computeRotatedVector ammoOffsetLocal (keyD ext s).gunEuler) ∧
      (¬ (-90 < s.gunEuler.y - 1 / 2 ∧ s.gunEuler.y - 1 / 2 < 90) →
        (keyD ext s).gunEuler = ⟨s.gunEuler.x, -90, s.gunEuler.z⟩ ∧
          (keyD ext s).aimOffsetWorld = s.aimOffsetWorld ∧
          (keyD ext s).ammoOffsetWorld = s.ammoOffsetWorld) := by
  obtain ⟨h1, h2, h3, h4⟩ := hs
  unfold keyD recomputeOffsets
  simp only
  constructor
  · intro hin
    split
    · exact ⟨rfl, rfl, rfl⟩
    · rename_i hn
      exact absurd (show _ from hin.1) hn
  · intro hout
    split
    · rename_i hp
      exact absurd ⟨by linarith, by linarith⟩ hout
    · split
      · exact ⟨rfl, rfl, rfl⟩
      · rename_i hn1 hn2
        have he : s.gunEuler.y - 1 / 2 = -90 := by linarith [not_lt.mp hn1, not_lt.mp hn2]
        refine ⟨?_, rfl, rfl⟩
        simp only [he]

/-- C9, the clamp skips the recompute.  In every state that satisfies the aim invariant
(pitch in `[-70, 70]`, yaw in `[-90, 90]`: every reachable state), for each aim key, with
`t` the affected angle after its 0.5 step: if `t` lies strictly inside its range the new
`gunEuler` carries `t` and both world offsets are `computeRotatedVector` of their local
offsets at the new `gunEuler`; otherwise the angle is set to the limit and both world
offsets are exactly what they were before the key press. -/
theorem clamp_skips_recompute (ext : Externals) (now : Nat) (s : State)
    (hs : -70 ≤ s.gunEuler.x ∧ s.gunEuler.x ≤ 70 ∧ -90 ≤ s.gunEuler.y ∧ s.gunEuler.y ≤ 90) :
    (∃ u, key ext now 'w' s = some u ∧ key ext now 'W' s = some u ∧
        (-70 < s.gunEuler.x - 1 / 2 ∧ s.gunEuler.x - 1 / 2 < 70 →
          u.gunEuler = ⟨s.gunEuler.x - 1 / 2, s.gunEuler.y, s.gunEuler.z⟩ ∧
            u.aimOffsetWorld = ext.computeRotatedVector aimOffsetLocal u.gunEuler ∧
            u.ammoOffsetWorld = ext.computeRotatedVector ammoOffsetLocal u.gunEuler) ∧
        (¬ (-70 < s.gunEuler.x - 1 / 2 ∧ s.gunEuler.x - 1 / 2 < 70) →
          u.gunEuler = ⟨-70, s.gunEuler.y, s.gunEuler.z⟩ ∧
            u.aimOffsetWorld = s.aimOffsetWorld ∧ u.ammoOffsetWorld = s.ammoOffsetWorld)) ∧
      (∃ u, key ext now 's' s = some u ∧ key ext now 'S' s = some u ∧
        (-70 < s.gunEuler.x + 1 / 2 ∧ s.gunEuler.x + 1 / 2 < 70 →
          u.gunEuler = ⟨s.gunEuler.x + 1 / 2, s.gunEuler.y, s.gunEuler.z⟩ ∧
            u.aimOffsetWorld = ext.computeRotatedVector aimOffsetLocal u.gunEuler ∧
            u.ammoOffsetWorld = ext.computeRotatedVector ammoOffsetLocal u.gunEuler) ∧
        (¬ (-70 < s.gunEuler.x + 1 / 2 ∧ s.gunEuler.x + 1 / 2 < 70) →
          u.gunEuler = ⟨70, s.gunEuler.y, s.gunEuler.z⟩ ∧
            u.aimOffsetWorld = s.aimOffsetWorld ∧ u.ammoOffsetWorld = s.ammoOffsetWorld)) ∧
      (∃ u, key ext now 'a' s = some u ∧ key ext now 'A' s = some u ∧
        (-90 < s.gunEuler.y + 1 / 2 ∧ s.gunEuler.y + 1 / 2 < 90 →
          u.gunEuler = ⟨s.gunEuler.x, s.gunEuler.y + 1 / 2, s.gunEuler.z⟩ ∧
            u.aimOffsetWorld = ext.computeRotatedVector aimOffsetLocal u.gunEuler ∧
            u.ammoOffsetWorld = ext.computeRotatedVector ammoOffsetLocal u.gunEuler) ∧
        (¬ (-90 < s.gunEuler.y + 1 / 2 ∧ s.gunEuler.y + 1 / 2 < 90) →
          u.gunEuler = ⟨s.gunEuler.x, 90, s.gunEuler.z⟩ ∧
            u.aimOffsetWorld = s.aimOffsetWorld ∧ u.ammoOffsetWorld = s.ammoOffsetWorld)) ∧
      (∃ u, key ext now 'd' s = some u ∧ key ext now 'D' s = some u ∧
        (-90 < s.gunEuler.y - 1 / 2 ∧ s.gunEuler.y - 1 / 2 < 90 →
          u.gunEuler = ⟨s.gunEuler.x, s.gunEuler.y - 1 / 2, s.gunEuler.z⟩ ∧
            u.aimOffsetWorld = ext.computeRotatedVector aimOffsetLocal u.gunEuler ∧
            u.ammoOffsetWorld = ext.computeRotatedVector ammoOffsetLocal u.gunEuler) ∧
        (¬ (-90 < s.gunEuler.y - 1 / 2 ∧ s.gunEuler.y - 1 / 2 < 90) →
          u.gunEuler = ⟨s.gunEuler.x, -90, s.gunEuler.z⟩ ∧
            u.aimOffsetWorld = s.aimOffsetWorld ∧ u.ammoOffsetWorld = s.ammoOffsetWorld)) :=
  ⟨⟨keyW ext s, rfl, rfl, keyW_spec ext s hs⟩, ⟨keyS ext s, rfl, rfl, keyS_spec ext s hs⟩,
    ⟨keyA ext s, rfl, rfl, keyA_spec ext s hs⟩, ⟨keyD ext s, rfl, rfl, keyD_spec ext s hs⟩⟩

/-- Evaluation of C9 at the upper pitch limit: pressing `w` keeps the pitch at -70 and both
world offsets as they were. -/
theorem clamp_skips_recompute_witness :
    (-70 ≤ pitchLimitState.gunEuler.x ∧ pitchLimitState.gunEuler.x ≤ 70 ∧
        -90 ≤ pitchLimitState.gunEuler.y ∧ pitchLimitState.gunEuler.y ≤ 90) ∧
      ∃ u, key sampleExt 0 'w' pitchLimitState = some u ∧
        u.gunEuler = ⟨-70, 0, 0⟩ ∧
        u.aimOffsetWorld = pitchLimitState.aimOffsetWorld ∧
        u.ammoOffsetWorld = pitchLimitState.ammoOffsetWorld :=
  have hs : -70 ≤ pitchLimitState.gunEuler.x ∧ pitchLimitState.gunEuler.x ≤ 70 ∧
      -90 ≤ pitchLimitState.gunEuler.y ∧ pitchLimitState.gunEuler.y ≤ 90 := by
    simp only [pitchLimitState]
    norm_num
  have hout : ¬ (-70 < pitchLimitState.gunEuler.x - 1 / 2 ∧
      pitchLimitState.gunEuler.x - 1 / 2 < 70) := by
    simp only [pitchLimitState]
    norm_num
  match (clamp_skips_recompute sampleExt 0 pitchLimitState hs).1 with
  | ⟨u, hk, _, _, hclamp⟩ => ⟨hs, u, hk, hclamp hout⟩

/-! ## `reset` -/

theorem list_length_ten {α : Type} (l : List α) (h : l.length = 10) :
    ∃ a0 a1 a2 a3 a4 a5 a6 a7 a8 a9, l = [a0, a1, a2, a3, a4, a5, a6, a7, a8, a9] := by
  rcases l with _ | ⟨a0, l⟩
  · simp at h
  rcases l with _ | ⟨a1, l⟩
  · simp at h
  rcases l with _ | ⟨a2, l⟩
  · simp at h
  rcases l with _ | ⟨a3, l⟩
  · simp at h
  rcases l with _ | ⟨a4, l⟩
  · simp at h
  rcases l with _ | ⟨a5, l⟩
  · simp at h
  rcases l with _ | ⟨a6, l⟩
  · simp at h
  rcases l with _ | ⟨a7, l⟩
  · simp at h
  rcases l with _ | ⟨a8, l⟩
  · simp at h
  rcases l with _ | ⟨a9, l⟩
  · simp at h
  rcases l with _ | ⟨a10, l⟩
  · exact ⟨a0, a1, a2, a3, a4, a5, a6, a7, a8, a9, rfl⟩
  · simp at h

/-- The targets `reset` produces from a ten-element array, whatever the array held. -/
theorem reset_bullseyeData (s : State) (h : s.bullseyeData.length = 10) :
    (reset s).bullseyeData = (reset blankState).bullseyeData := by
  obtain ⟨a0, a1, a2, a3, a4, a5, a6, a7, a8, a9, hl⟩ := list_length_ten _ h
  simp only [reset, hl, blankState, List.replicate, resetBullseyes, Bullseye.setState]

theorem reset_blank_layout : targetLayout (reset blankState) = gridLayout := by
  simp only [targetLayout, reset, blankState, List.replicate, resetBullseyes,
    Bullseye.setState, gridLayout]
  norm_num

theorem reset_blank_hits : ∀ b ∈ (reset blankState).bullseyeData, b.hit = false := by
  simp only [reset, blankState, List.replicate, resetBullseyes, Bullseye.setState]
  norm_num

theorem gridLayout_spacing (i : Nat) (p q : ℚ × ℚ) (hp : gridLayout[i]? = some p)
    (hq : gridLayout[i + 1]? = some q) :
    (i < 4 → p.2 = 19 / 2 ∧ q.2 = 19 / 2 ∧ q.1 - p.1 = 10) ∧
      (5 ≤ i → p.2 = 39 / 2 ∧ q.2 = 39 / 2 ∧ q.1 - p.1 = 15) := by
  have hi : i + 1 < 10 := (List.getElem?_eq_some_iff.mp hq).1
  have hi2 : i < 9 := by omega
  interval_cases i <;> simp [gridLayout] at hp hq <;> subst hp <;> subst hq <;> norm_num

/-- C7, what `reset` restores.  For every state (with the arrays of 6 projectiles and 10
targets): afterwards `score = 0`, `targetsRemaining = 10`, all 6 projectile slots are
`UNUSED`, every target has `hit = false`, and the targets stand on the two-row grid:
targets 0..4 at depth 9.5 with `x = -40, -30, -20, -10, 0` (constant spacing 10), targets
5..9 at depth 19.5 with `x = 10, 25, 40, 55, 70` (constant spacing 15, strictly larger).
The targets after reset are the same whatever the targets were before. -/
theorem reset_restores (s : State) (hw : s.WF) :
    (reset s).score = 0 ∧ (reset s).targetsRemaining = 10 ∧
      (reset s).ammo.length = 6 ∧ (∀ shot ∈ (reset s).ammo, shot.type = ShotType.UNUSED) ∧
      (reset s).bullseyeData.length = 10 ∧ (∀ b ∈ (reset s).bullseyeData, b.hit = false) ∧
      targetLayout (reset s) = gridLayout ∧
      (∀ (i : Nat) (p q : ℚ × ℚ), (targetLayout (reset s))[i]? = some p →
        (targetLayout (reset s))[i + 1]? = some q →
          (i < 4 → p.2 = 19 / 2 ∧ q.2 = 19 / 2 ∧ q.1 - p.1 = 10) ∧
            (5 ≤ i → p.2 = 39 / 2 ∧ q.2 = 39 / 2 ∧ q.1 - p.1 = 15)) ∧
      (10 : ℚ) < 15 ∧
      ∀ s2 : State, s2.WF → (reset s2).bullseyeData = (reset s).bullseyeData := by
  obtain ⟨h1, h2, h3⟩ := hw
  have hb := reset_bullseyeData s h3
  have hlay : targetLayout (reset s) = gridLayout := by
    unfold targetLayout
    rw [hb]
    exact reset_blank_layout
  refine ⟨rfl, rfl, ?_, ?_, ?_, ?_, hlay, ?_, by norm_num, ?_⟩
  · simp [reset, h1, ammoRounds]
  · intro shot hmem
    simp only [reset, List.mem_map] at hmem
    obtain ⟨a, -, rfl⟩ := hmem
    rfl
  · rw [hb]
    rfl
  · rw [hb]
    exact reset_blank_hits
  · rw [hlay]
    exact gridLayout_spacing
  · intro s2 hw2
    rw [hb, reset_bullseyeData s2 hw2.2.2]

/-- Evaluation of C7 at a reachable state in which every target has been hit. -/
theorem reset_restores_witness :
    loudState.WF ∧ loudState.score = 10 ∧ (reset loudState).score = 0 ∧
      (reset loudState).targetsRemaining = 10 ∧
      (∀ shot ∈ (reset loudState).ammo, shot.type = ShotType.UNUSED) ∧
      (∀ b ∈ (reset loudState).bullseyeData, b.hit = false) ∧
      targetLayout (reset loudState) = gridLayout :=
  have hw : loudState.WF := ⟨by decide, by decide, by decide⟩
  have h := reset_restores loudState hw
  ⟨hw, by with_unfolding_all decide, h.1, h.2.1, h.2.2.2.1, h.2.2.2.2.2.1, h.2.2.2.2.2.2.1⟩

/-- C10 fails on the code: `reset` does not touch `ammoCount`.  `spentState` is reachable
with all six slots free and `ammoCount = 3`; after `reset` the counter is still 3, while the
state that differs from it only in `ammoCount = 6` comes out of `reset` with 6. -/
theorem reset_keeps_ammoCount :
    Reachable sampleExt spentState ∧ spentState.ammoCount = 3 ∧
      (reset spentState).ammoCount = 3 ∧
      (reset { spentState with ammoCount := 6 }).ammoCount = 6 ∧
      (reset spentState).ammoCount ≠ (reset { spentState with ammoCount := 6 }).ammoCount ∧
      ∀ s : State, (reset s).ammoCount = s.ammoCount :=
  have h3 : spentState.ammoCount = 3 := by with_unfolding_all decide
  ⟨reachable_run sampleExt spentRun startState spentState startState_reachable rfl, h3, h3,
    rfl, by
      show spentState.ammoCount ≠ 6
      rw [h3]
      decide, fun _ => rfl⟩

/-! ## Target oscillation -/

theorem sampleExt_eulerLateral : EulerLateral sampleExt := fun _ _ => ⟨rfl, rfl⟩

theorem updateBullseye_inBand (ext : Externals) (he : EulerLateral ext) (m M D d : ℚ)
    (b : Bullseye) (hm : m ≤ -15) (hM : 15 ≤ M) (hd : 0 < d) (hdD : d ≤ D)
    (hb : InBand m M D b) : InBand m M D (updateBullseye ext d b) := by
  obtain ⟨hx, hv⟩ := he b.body d
  unfold updateBullseye
  simp only
  split
  · rename_i hlo
    left
    refine ⟨rfl, ?_, by linarith⟩
    show m - 5 * D ≤ (ext.integrate b.body d).position.x
    rw [hx]
    rcases hb with ⟨v, h1, h2⟩ | ⟨v, h1, h2⟩
    · rw [v]
      show m - 5 * D ≤ b.body.position.x + 5 * d
      nlinarith
    · rw [v]
      show m - 5 * D ≤ b.body.position.x + -5 * d
      nlinarith
  · split
    · rename_i hlo hhi
      right
      refine ⟨rfl, by linarith, ?_⟩
      show (ext.integrate b.body d).position.x ≤ M + 5 * D
      rw [hx]
      rcases hb with ⟨v, h1, h2⟩ | ⟨v, h1, h2⟩
      · rw [v]
        show b.body.position.x + 5 * d ≤ M + 5 * D
        nlinarith
      · rw [v]
        show b.body.position.x + -5 * d ≤ M + 5 * D
        nlinarith
    · rename_i hlo hhi
      have hlo2 : -15 < (ext.integrate b.body d).position.x := not_le.mp hlo
      have hhi2 : (ext.integrate b.body d).position.x < 15 := not_le.mp hhi
      rcases hb with ⟨v, h1, h2⟩ | ⟨v, h1, h2⟩
      · left
        exact ⟨hv.trans v, by linarith, by linarith⟩
      · right
        exact ⟨hv.trans v, by linarith, by linarith⟩

theorem foldl_inBand (ext : Externals) (he : EulerLateral ext) (m M D : ℚ)
    (hm : m ≤ -15) (hM : 15 ≤ M) (fs : List (ℚ × Nat)) (hfs : ∀ f ∈ fs, 0 < f.1 ∧ f.1 ≤ D)
    (b : Bullseye) (hb : InBand m M D b) :
    InBand m M D (fs.foldl (fun b f => updateBullseye ext f.1 b) b) := by
  induction fs generalizing b with
  | nil => exact hb
  | cons f fs ih =>
    have hf := hfs f (List.mem_cons_self _ _)
    exact ih (fun g hg => hfs g (List.mem_cons_of_mem _ hg)) _
      (updateBullseye_inBand ext he m M D f.1 b hm hM hf.1 hf.2 hb)

theorem advance_bullseyeData (ext : Externals) (fs : List (ℚ × Nat)) (s : State) :
    (advance ext fs s).bullseyeData =
      s.bullseyeData.map fun b => fs.foldl (fun b f => updateBullseye ext f.1 b) b := by
  induction fs generalizing s with
  | nil => simp [advance]
  | cons f fs ih =>
    simp only [advance, ih, updateObjects, List.map_map, List.foldl_cons]
    rfl

theorem reset_blank_velocity :
    ∀ b ∈ (reset blankState).bullseyeData, b.body.velocity = ⟨5, 0, 0⟩ := by
  simp only [reset, blankState, List.replicate, resetBullseyes, Bullseye.setState]
  norm_num

theorem inBand_bounds {m M D : ℚ} {b : Bullseye} (hD : 0 ≤ D) (h : InBand m M D b) :
    m - 5 * D ≤ b.body.position.x ∧ b.body.position.x ≤ M + 5 * D := by
  rcases h with ⟨-, h1, h2⟩ | ⟨-, h1, h2⟩ <;> constructor <;> linarith

/-- C8, as the code behaves.  Take the lateral position to be integrated as `x += v * dt`
with the velocity changed by the reversal rule only.  For every target, with `x0` its
position after `reset`, and for every sequence of `updateObjects(dt)` steps with
`0 < dt ≤ D` and no contact, the position stays within
`[min(x0, -15) - 5 * D, max(x0, 15) + 5 * D]`: a target may start outside `[-15, 15]`, and it
overshoots a bound by up to one step's travel before the reversal takes effect. -/
theorem oscillation_envelope (ext : Externals) (he : EulerLateral ext) (s : State)
    (hw : s.WF) (D : ℚ) (hD : 0 ≤ D) (fs : List (ℚ × Nat))
    (hfs : ∀ f ∈ fs, 0 < f.1 ∧ f.1 ≤ D) (i : Nat) (hi : i < 10) :
    min ((reset s).targetX i) (-15) - 5 * D ≤ (advance ext fs (reset s)).targetX i ∧
      (advance ext fs (reset s)).targetX i ≤ max ((reset s).targetX i) 15 + 5 * D := by
  have hlen : (reset s).bullseyeData.length = 10 := (reset_wf s hw).2.2
  have hlt : i < (reset s).bullseyeData.length := by omega
  have hget : (reset s).bullseyeData[i]? = some ((reset s).bullseyeData[i]) :=
    List.getElem?_eq_getElem hlt
  have hmem : (reset s).bullseyeData[i] ∈ (reset blankState).bullseyeData := by
    rw [← reset_bullseyeData s hw.2.2]
    exact List.getElem_mem hlt
  have hv := reset_blank_velocity _ hmem
  generalize (reset s).bullseyeData[i] = b0 at hget hv
  have h0 : InBand (min b0.body.position.x (-15)) (max b0.body.position.x 15) D b0 :=
    Or.inl ⟨hv, by linarith [min_le_left b0.body.position.x (-15)], le_max_left _ _⟩
  have hfin := inBand_bounds hD (foldl_inBand ext he _ _ D (min_le_right _ _)
    (le_max_right _ _) fs hfs b0 h0)
  simp only [State.targetX, advance_bullseyeData, List.getElem?_map, hget, Option.map_some']
  exact hfin

/-- Evaluation of the amended C8 for the middle target and one step of four time units. -/
theorem oscillation_envelope_witness :
    EulerLateral sampleExt ∧ blankState.WF ∧ (0 : ℚ) ≤ 4 ∧
      (∀ f ∈ [((4 : ℚ), 0)], 0 < f.1 ∧ f.1 ≤ 4) ∧ 4 < 10 ∧
      min ((reset blankState).targetX 4) (-15) - 5 * 4 ≤
        (advance sampleExt [(4, 0)] (reset blankState)).targetX 4 ∧
      (advance sampleExt [(4, 0)] (reset blankState)).targetX 4 ≤
        max ((reset blankState).targetX 4) 15 + 5 * 4 :=
  have hw : blankState.WF := ⟨rfl, rfl, rfl⟩
  have hfs : ∀ f ∈ [((4 : ℚ), 0)], 0 < f.1 ∧ f.1 ≤ 4 := by
    intro f hf
    rw [List.mem_singleton.mp hf]
    norm_num
  have h := oscillation_envelope sampleExt sampleExt_eulerLateral blankState hw 4
    (by norm_num) [(4, 0)] hfs 4 (by norm_num)
  ⟨sampleExt_eulerLateral, hw, by norm_num, hfs, by norm_num, h.1, h.2⟩

set_option maxRecDepth 1000000 in
/-- C8 fails as stated.  Right after `reset` target 0 stands at `x = -40`, outside
`[-15, 15]`, and one frame of 50 ms later it is at `x = -39.75`; target 4, which starts
inside at `x = 0`, is at `x = 15.05` after 86 frames of 35 ms under the integration
`x += v * dt`. -/
theorem oscillation_leaves_band :
    EulerLateral sampleExt ∧ startState.targetX 0 = -40 ∧
      ¬ (-15 ≤ startState.targetX 0 ∧ startState.targetX 0 ≤ 15) ∧
      (advance sampleExt [(1 / 20, 0)] startState).targetX 0 = -159 / 4 ∧
      ¬ (-15 ≤ (advance sampleExt [(1 / 20, 0)] startState).targetX 0 ∧
        (advance sampleExt [(1 / 20, 0)] startState).targetX 0 ≤ 15) ∧
      startState.targetX 4 = 0 ∧ (∀ f ∈ steadyFrames, 0 < f.1) ∧
      (advance sampleExt steadyFrames startState).targetX 4 = 301 / 20 ∧
      ¬ (-15 ≤ (advance sampleExt steadyFrames startState).targetX 4 ∧
        (advance sampleExt steadyFrames startState).targetX 4 ≤ 15) :=
  have h0 : startState.targetX 0 = -40 := by with_unfolding_all decide
  have h1 : (advance sampleExt [(1 / 20, 0)] startState).targetX 0 = -159 / 4 := by
    with_unfolding_all decide
  have hpos : ∀ f ∈ steadyFrames, 0 < f.1 := by
    intro f hf
    rw [List.eq_of_mem_replicate hf]
    norm_num
  have h4 : (advance sampleExt steadyFrames startState).targetX 4 = 301 / 20 := by
    with_unfolding_all decide
  ⟨sampleExt_eulerLateral, h0, by rw [h0]; norm_num, h1, by rw [h1]; norm_num,
    by with_unfolding_all decide, hpos, h4, by rw [h4]; norm_num⟩

/-! ## Counters and flags -/

theorem hitCount_add_missCount (l : List Bullseye) : hitCount l + missCount l = l.length := by
  induction l with
  | nil => rfl
  | cons b rest ih =>
    simp only [hitCount, missCount, List.countP_cons, List.length_cons] at ih ⊢
    cases b.hit <;> simp <;> omega

/-- Under `HitsKept`, the hit count grows by the number of strikes. -/
theorem hitCount_of_hitsKept {l m : List Bullseye} (h : HitsKept l m) :
    hitCount m = hitCount l + newlyHit l m := by
  induction h with
  | nil => rfl
  | @cons a b l1 l2 hab _ ih =>
    rw [newlyHit_cons]
    simp only [hitCount, List.countP_cons] at ih ⊢
    revert hab
    cases a.hit <;> cases b.hit <;> simp <;> omega

theorem tally_of_same {s t : State} (h1 : t.bullseyeData = s.bullseyeData)
    (h2 : t.score = s.score) (h3 : t.targetsRemaining = s.targetsRemaining) (h : Tally s) :
    Tally t := by
  unfold Tally
  rw [h1, h2, h3]
  exact h

theorem tally_of_scored {s t : State} (hsc : Scored s t) (h : Tally s) : Tally t := by
  obtain ⟨hk, h2, h3⟩ := hsc
  obtain ⟨t1, t2⟩ := h
  have hc := hitCount_of_hitsKept hk
  have hlen : s.bullseyeData.length = t.bullseyeData.length := List.Forall₂.length_eq hk
  have a1 := hitCount_add_missCount s.bullseyeData
  have a2 := hitCount_add_missCount t.bullseyeData
  constructor
  · rw [h2, t1, hc]
    push_cast
    ring
  · rw [h3, t2]
    omega

theorem reset_tally (s : State) (hw : s.WF) : Tally (reset s) := by
  have hb := reset_bullseyeData s hw.2.2
  have h1 : hitCount (reset blankState).bullseyeData = 0 := by decide
  have h2 : missCount (reset blankState).bullseyeData = 10 := by decide
  unfold Tally
  rw [hb, h1, h2]
  exact ⟨rfl, rfl⟩

theorem exec_tally (ext : Externals) (c : Command) (s t : State) (hw : s.WF) (h : Tally s)
    (hex : exec ext c s = some t) : Tally t := by
  cases c with
  | fire now =>
    cases Option.some.inj hex
    have hf := fire_frame ext now s
    exact tally_of_same hf.2.2.2 hf.2.1 hf.2.2.1 h
  | reset =>
    cases Option.some.inj hex
    exact reset_tally s hw
  | updateObjects d now =>
    exact tally_of_scored (exec_scored ext (Command.updateObjects d now) s t rfl hex) h
  | generateContacts o =>
    exact tally_of_scored (exec_scored ext (Command.generateContacts o) s t rfl hex) h
  | key k now =>
    rcases key_cases ext now k s t hex with rfl | rfl | rfl | rfl | rfl | ⟨-, rfl⟩ | rfl
    · have hg := keyW_sameGame ext s
      exact tally_of_same hg.2.2.2.1 hg.2.2.2.2.1 hg.2.2.2.2.2 h
    · have hg := keyS_sameGame ext s
      exact tally_of_same hg.2.2.2.1 hg.2.2.2.2.1 hg.2.2.2.2.2 h
    · have hg := keyA_sameGame ext s
      exact tally_of_same hg.2.2.2.1 hg.2.2.2.2.1 hg.2.2.2.2.2 h
    · have hg := keyD_sameGame ext s
      exact tally_of_same hg.2.2.2.1 hg.2.2.2.2.1 hg.2.2.2.2.2 h
    · have hf := fire_frame ext now s
      exact tally_of_same hf.2.2.2 hf.2.1 hf.2.2.1 h
    · exact reset_tally s hw
    · exact h
  | specialKey k =>
    cases Option.some.inj hex
    have hg := (specialKey_sameCore k s).sameGame
    exact tally_of_same hg.2.2.2.1 hg.2.2.2.2.1 hg.2.2.2.2.2 h

theorem reachable_tally (ext : Externals) (s : State) (hs : Reachable ext s) : Tally s := by
  induction hs with
  | init s0 hc => exact reset_tally s0 hc.1
  | step c s t hr hex ih => exact exec_tally ext c s t (reachable_inv ext s hr).1 ih hex

/-- C11, counter and flag consistency: in every reachable state `score` is the number of
targets with `hit = true` and `targetsRemaining` the number with `hit = false`, so that
`score + targetsRemaining = 10` and `0 ≤ score ≤ 10`; and no command other than a reset, nor
any sequence of such commands, lowers `score`. -/
theorem counter_flag_consistency (ext : Externals) (s : State) (hs : Reachable ext s) :
    s.score = hitCount s.bullseyeData ∧ s.targetsRemaining = missCount s.bullseyeData ∧
      s.score + s.targetsRemaining = 10 ∧ 0 ≤ s.score ∧ s.score ≤ 10 ∧
      (∀ (c : Command) (t : State), c.isReset = false → exec ext c s = some t →
        s.score ≤ t.score) ∧
      ∀ (cmds : List Command) (t : State), (∀ c ∈ cmds, c.isReset = false) →
        run ext cmds s = some t → s.score ≤ t.score := by
  obtain ⟨t1, t2⟩ := reachable_tally ext s hs
  have hlen : s.bullseyeData.length = 10 := (reachable_inv ext s hs).1.2.2
  have ha := hitCount_add_missCount s.bullseyeData
  refine ⟨t1, t2, by omega, by omega, by omega, ?_, ?_⟩
  · intro c t hc hex
    have h := (exec_scored ext c s t hc hex).2.1
    omega
  · intro cmds t hc hrun
    have h := (run_scored ext cmds s t hc hrun).2.1
    omega

/-- Evaluation of C11 at the reachable state in which every target has been hit, followed
by one more frame of positive tests. -/
theorem counter_flag_consistency_witness :
    Reachable sampleExt loudState ∧ loudState.score = 10 ∧ loudState.targetsRemaining = 0 ∧
      hitCount loudState.bullseyeData = 10 ∧ missCount loudState.bullseyeData = 0 ∧
      loudState.score ≤ (generateContacts sampleExt loudOracle loudState).score :=
  have hr : Reachable sampleExt loudState :=
    reachable_run sampleExt loudRun startState loudState startState_reachable rfl
  have h := counter_flag_consistency sampleExt loudState hr
  ⟨hr, by with_unfolding_all decide, by with_unfolding_all decide,
    by with_unfolding_all decide, by with_unfolding_all decide,
    h.2.2.2.2.2.1 (Command.generateContacts loudOracle) _ rfl rfl⟩

/-! ## Projectile strikes -/

theorem sampleExt_forceKeepsMotion : ForceKeepsMotion sampleExt := fun _ _ _ => ⟨rfl, rfl⟩

theorem strikeBullseye_halted (ext : Externals) (hf : ForceKeepsMotion ext) (b : Bullseye)
    (shot : AmmoRound) : Halted (strikeBullseye ext b shot) := by
  unfold Halted strikeBullseye
  simp only
  constructor
  · rw [(hf _ _ _).1]
  · rw [(hf _ _ _).2]

theorem strikeBullseye_halfSize (ext : Externals) (b : Bullseye) (shot : AmmoRound) :
    (strikeBullseye ext b shot).halfSize = b.halfSize := rfl

theorem contactShots_halfSize (ext : Externals) (o : ContactOracle) (i j : Nat)
    (l : List AmmoRound) (b : Bullseye) (ac : Int) :
    (contactShots ext o i j l b ac).bullseye.halfSize = b.halfSize := by
  induction l generalizing j b ac with
  | nil => rfl
  | cons shot rest ih =>
    simp only [contactShots]
    split
    · split
      · rfl
      · split
        · simp only [ih, strikeBullseye_halfSize]
        · simp only [ih]
    · simp only [ih]

/-- A halted target is still halted when the projectile loop is done with it. -/
theorem contactShots_keeps_halted (ext : Externals) (hf : ForceKeepsMotion ext)
    (o : ContactOracle) (i j : Nat) (l : List AmmoRound) (b : Bullseye) (ac : Int)
    (hb : Halted b) : Halted (contactShots ext o i j l b ac).bullseye := by
  induction l generalizing j b ac with
  | nil => exact hb
  | cons shot rest ih =>
    simp only [contactShots]
    split
    · split
      · exact hb
      · split
        · exact ih _ _ _ (strikeBullseye_halted ext hf b shot)
        · exact ih _ _ _ hb
    · exact ih _ _ _ hb

/-- A registered box-sphere contact leaves the target halted. -/
theorem contactShots_halted (ext : Externals) (hf : ForceKeepsMotion ext)
    (o : ContactOracle) (i j : Nat) (l : List AmmoRound) (b : Bullseye) (ac : Int)
    (hs : shotsStrike o i j l = true) : Halted (contactShots ext o i j l b ac).bullseye := by
  induction l generalizing j b ac with
  | nil => simp [shotsStrike] at hs
  | cons shot rest ih =>
    simp only [contactShots]
    simp only [shotsStrike] at hs
    split
    · rename_i hne
      rw [if_pos hne] at hs
      split
      · rename_i hm
        rw [if_pos hm] at hs
        exact absurd hs (by simp)
      · rename_i hm
        rw [if_neg hm] at hs
        split
        · exact contactShots_keeps_halted ext hf o i (j + 1) rest _ _
            (strikeBullseye_halted ext hf b shot)
        · rename_i hsph
          rw [if_neg hsph] at hs
          exact ih _ _ _ hs
    · rename_i hne
      rw [if_neg hne] at hs
      exact ih _ _ _ hs

theorem planeStep_halfSize (o : ContactOracle) (i : Nat) (b : Bullseye) (sc tr : Int) :
    (planeStep o i b sc tr).1.halfSize =
      (if o.boxAndHalfSpace i = true then ⟨0, 0, 0⟩ else b.halfSize) := by
  unfold planeStep planeContact
  cases hb : b.hit <;> cases ho : o.boxAndHalfSpace i <;> simp [hb]

/-- What the target loop leaves of a target for which it registered a box-sphere contact. -/
theorem contactBullseyes_strike (ext : Externals) (hf : ForceKeepsMotion ext)
    (o : ContactOracle) (i : Nat) (bs : List Bullseye) (ammo : List AmmoRound)
    (ac sc tr : Int) (k : Nat) (b c : Bullseye) (hb : bs[k]? = some b)
    (hc : (contactBullseyes ext o i bs ammo ac sc tr).bullseyeData[k]? = some c)
    (hs : (sphereContacts ext o i bs ammo ac sc tr)[k]? = some true) :
    Halted c ∧ c.hit = (b.hit || o.boxAndHalfSpace (i + k)) ∧
      c.halfSize = (if o.boxAndHalfSpace (i + k) = true then ⟨0, 0, 0⟩ else b.halfSize) := by
  induction bs generalizing i ammo ac sc tr k with
  | nil => simp at hb
  | cons a rest ih =>
    simp only [contactBullseyes] at hc
    simp only [sphereContacts] at hs
    split at hc
    · rename_i hm
      rw [if_pos hm] at hs
      have := List.getElem?_replicate (a := false) (n := rest.length + 1) (m := k)
      rw [this] at hs
      split at hs <;> simp at hs
    · rename_i hm
      rw [if_neg hm] at hs
      cases k with
      | zero =>
        simp only [List.getElem?_cons_zero] at hb hs
        cases Option.some.inj hb
        have hstr : shotsStrike o i 0 ammo = true := Option.some.inj hs
        have hc2 : c = (contactShots ext o i 0 ammo (planeStep o i b sc tr).1 ac).bullseye := by
          split at hc
          · simp only [List.getElem?_cons_zero] at hc
            exact (Option.some.inj hc).symm
          · simp only [List.getElem?_cons_zero] at hc
            exact (Option.some.inj hc).symm
        subst hc2
        rw [Nat.add_zero]
        refine ⟨contactShots_halted ext hf o i 0 ammo _ ac hstr, ?_, ?_⟩
        · rw [contactShots_hit, (planeStep_spec o i b sc tr).1]
        · rw [contactShots_halfSize, planeStep_halfSize]
      | succ k =>
        simp only [List.getElem?_cons_succ] at hb hs
        split at hc
        · rename_i hret
          rw [if_pos hret] at hs
          rw [List.getElem?_replicate] at hs
          split at hs <;> simp at hs
        · rename_i hret
          rw [if_neg hret] at hs
          simp only [List.getElem?_cons_succ] at hc
          have := ih (i + 1) _ _ _ _ k hb hc hs
          rw [show i + (k + 1) = i + 1 + k by omega]
          exact this

/-- C12, as the code behaves.  When `generateContacts` registers a box-sphere contact
between a target and an in-flight projectile, then after the call (adding the impact force
leaving velocity and acceleration alone) the target's velocity is zero and its acceleration
is free fall `(0,-10,0)`.  The contact itself changes neither the footprint nor the `hit`
flag: `hit` is the old flag or-ed with the outcome of the target's ground-plane test in
this call, and `halfSize` is `(0,0,0)` if that test was positive and the old `halfSize`
otherwise. -/
theorem strike_resolution (ext : Externals) (hf : ForceKeepsMotion ext) (o : ContactOracle)
    (s : State) (i : Nat) (b c : Bullseye) (hb : s.bullseyeData[i]? = some b)
    (hc : (generateContacts ext o s).bullseyeData[i]? = some c)
    (hs : s.sphereContact ext o i = true) :
    c.body.velocity = ⟨0, 0, 0⟩ ∧ c.body.acceleration = ⟨0, -10, 0⟩ ∧
      c.hit = (b.hit || o.boxAndHalfSpace i) ∧
      c.halfSize = (if o.boxAndHalfSpace i = true then ⟨0, 0, 0⟩ else b.halfSize) := by
  have hs2 : (sphereContacts ext o 0 s.bullseyeData s.ammo s.ammoCount s.score
      s.targetsRemaining)[i]? = some true := by
    unfold State.sphereContact at hs
    cases hg : (sphereContacts ext o 0 s.bullseyeData s.ammo s.ammoCount s.score
        s.targetsRemaining)[i]? with
    | none =>
      rw [hg] at hs
      exact absurd hs (by simp)
    | some v =>
      rw [hg] at hs
      simp only at hs
      rw [hs]
  have h := contactBullseyes_strike ext hf o 0 s.bullseyeData s.ammo s.ammoCount s.score
    s.targetsRemaining i b c hb hc hs2
  rw [Nat.zero_add] at h
  exact ⟨h.1.1, h.1.2, h.2.1, h.2.2⟩

/-- Evaluation of the amended C12 on a shot that strikes target 0 in flight. -/
theorem strike_resolution_witness :
    ForceKeepsMotion sampleExt ∧ aimedState.sphereContact sampleExt strikeOracle 0 = true ∧
      ∃ b c : Bullseye, aimedState.bullseyeData[0]? = some b ∧
        (generateContacts sampleExt strikeOracle aimedState).bullseyeData[0]? = some c ∧
        c.body.velocity = ⟨0, 0, 0⟩ ∧ c.body.acceleration = ⟨0, -10, 0⟩ ∧
        c.hit = (b.hit || strikeOracle.boxAndHalfSpace 0) ∧
        c.halfSize =
          (if strikeOracle.boxAndHalfSpace 0 = true then ⟨0, 0, 0⟩ else b.halfSize) :=
  have hl : 0 < aimedState.bullseyeData.length := by decide
  have hl2 : 0 < (generateContacts sampleExt strikeOracle aimedState).bullseyeData.length := by
    with_unfolding_all decide
  have hs : aimedState.sphereContact sampleExt strikeOracle 0 = true := by
    with_unfolding_all decide
  ⟨sampleExt_forceKeepsMotion, hs, aimedState.bullseyeData[0],
    (generateContacts sampleExt strikeOracle aimedState).bullseyeData[0],
    List.getElem?_eq_getElem hl, List.getElem?_eq_getElem hl2,
    strike_resolution sampleExt sampleExt_forceKeepsMotion strikeOracle aimedState 0 _ _
      (List.getElem?_eq_getElem hl) (List.getElem?_eq_getElem hl2) hs⟩

/-- C12 fails as stated.  `aimedState` is reachable with shot 0 in flight; under
`strikeOracle` the call registers a box-sphere contact for target 0 and frees the shot, yet
afterwards target 0 still has `hit = false` and its full footprint `(1.2, 3, 1)`, and
`score` is still 0.  Velocity and acceleration are as the claim says. -/
theorem strike_keeps_footprint_and_flag :
    Reachable sampleExt aimedState ∧ aimedState.shotType 0 = ShotType.PISTOL ∧
      aimedState.sphereContact sampleExt strikeOracle 0 = true ∧
      (generateContacts sampleExt strikeOracle aimedState).shotType 0 = ShotType.UNUSED ∧
      (generateContacts sampleExt strikeOracle aimedState).hitFlag 0 = false ∧
      ((generateContacts sampleExt strikeOracle aimedState).bullseyeData[0]?).map
          (fun b => b.halfSize) = some ⟨12 / 10, 3, 1⟩ ∧
      (⟨12 / 10, 3, 1⟩ : Vector3) ≠ ⟨0, 0, 0⟩ ∧
      ((generateContacts sampleExt strikeOracle aimedState).bullseyeData[0]?).map
          (fun b => (b.body.velocity, b.body.acceleration)) =
        some (⟨0, 0, 0⟩, ⟨0, -10, 0⟩) ∧
      (generateContacts sampleExt strikeOracle aimedState).score = 0 :=
  ⟨reachable_run sampleExt strikeRun startState aimedState startState_reachable rfl,
    by with_unfolding_all decide, by with_unfolding_all decide, by with_unfolding_all decide,
    by with_unfolding_all decide, by with_unfolding_all decide, by with_unfolding_all decide,
    by with_unfolding_all decide, by with_unfolding_all decide⟩

end ShootingGallery
